import Mathlib

set_option maxRecDepth 100000
set_option maxHeartbeats 1000000

/-!
Verification of the scan-result normalization engine of snyk/studio-mcp.

The development shallowly embeds the two converters of the repository:

* the SARIF converter (package `code`: `ConvertSARIFJSONToIssues`,
  `SarifConverter.toIssues`, `SarifConverter.getCodeFlow`, `issueSeverity`,
  `GetIgnoreDetailsFromSuppressions`, `ToAbsolutePath`, `DecodePath`), and
* the OSS/SCA converter (package `oss`: `ConvertOssJsonToIssues`,
  `ConvertToIssue`, `convertScanResultToIssues`, `toIssue`,
  `getAbsTargetFilePath`, and the `ossIssue` remediation helpers).

Conventions of the embedding:

* Go strings are Lean `String`; Go byte indexing and `len` are modelled at
  character granularity, which coincides with Go on the ASCII data this
  converter handles.
* Go `error` values are `Option String` (`none` = nil); `errors.Join` is
  `errorsJoin`. Functions returning `(T, error)` where a non-nil error always
  comes with a zero result are modelled as `Except String T`.
* Go maps used as sets (`map[string]bool`) are modelled as `List String`
  with membership, which preserves the insertion-order first-wins behavior.
* `time.Now().UTC()` is an explicit parameter `now : Int` threaded into the
  functions that Go code would read the clock in.
* JSON input is a Lean `String`; `encoding/json` is modelled by the parser
  `jsonParse` into the dynamic value type `JValue` followed by per-struct
  decoders mirroring Go unmarshalling (unknown object keys ignored, `null`
  keeps the zero value, type mismatches are errors). JSON numbers are
  modelled at integer precision; every numeric field this code consumes is
  an integer. Error message texts of the standard library are abridged.
-/

deriving instance DecidableEq for Except

/-- Model of Go `errors.Join` restricted to two operands, over `Option String`
(`none` is the nil error). Go joins the non-nil messages with a newline. -/
def errorsJoin : Option String → Option String → Option String
  | none, none => none
  | none, some e => some e
  | some e, none => some e
  | some e1, some e2 => some (e1 ++ "\n" ++ e2)

/-- Go `strings.HasPrefix`. -/
def stringsHasPre (s pre : String) : Bool :=
  pre.toList.isPrefixOf s.toList

/-- Decimal digits of a natural number, most significant first, with fuel. -/
def natReprAux : Nat → Nat → List Char
  | 0, _ => []
  | f + 1, n =>
    if n < 10 then [Char.ofNat (48 + n)]
    else natReprAux f (n / 10) ++ [Char.ofNat (48 + n % 10)]

/-- Decimal representation of a natural number. -/
def natRepr (n : Nat) : List Char := natReprAux (n + 1) n

/-- Decimal representation of an integer, mirroring Go `strconv` formatting. -/
def intRepr (n : Int) : List Char :=
  if n < 0 then '-' :: natRepr (-n).toNat else natRepr n.toNat

/-- Go `fmt.Sprintf` verb `%4d`: decimal representation left-padded with
spaces to a minimum width of four characters. -/
def goPad4d (n : Int) : String :=
  let s := intRepr n
  String.mk (List.replicate (4 - s.length) ' ' ++ s)

/-- Go `os.IsPathSeparator` on unix. -/
def isPathSeparator (c : Char) : Bool := c = '/'

/-- Backtracking step of the `..` case of Go `filepath.Clean`: after the
unconditional `out.w--`, keep decrementing while `out.w > dotdot` and the
char at the boundary (the one just dropped) is not a separator. The output
buffer is kept in reverse order; `dropped` is the char just dropped. -/
def cleanBacktrack : List Char → Char → Nat → List Char
  | [], _, _ => []
  | d :: rest', dropped, dotdot =>
    if (d :: rest').length > dotdot ∧ ¬ isPathSeparator dropped then
      cleanBacktrack rest' d dotdot
    else d :: rest'

/-- Main loop of Go `filepath.Clean` (unix separators, no volume name).
`out` is the output buffer in reverse order, `dotdot` the index up to which
`..` components may not backtrack. The first argument is recursion fuel;
every iteration consumes at least one character, so the caller passes the
input length plus one and the fuel never runs out. -/
def cleanLoop (rooted : Bool) : Nat → List Char → List Char → Nat → List Char
  | 0, _, out, _ => out
  | _, [], out, _ => out
  | fuel + 1, c :: cs, out, dotdot =>
    if isPathSeparator c then
      -- empty path element
      cleanLoop rooted fuel cs out dotdot
    else if c = '.' ∧ (cs = [] ∨ isPathSeparator (cs.headD ' ')) then
      -- `.` element
      cleanLoop rooted fuel cs out dotdot
    else if c = '.' ∧ cs.headD ' ' = '.' ∧ (cs.tail = [] ∨ isPathSeparator (cs.tail.headD ' ')) then
      -- `..` element
      if out.length > dotdot then
        cleanLoop rooted fuel cs.tail
          (match out with
           | [] => []
           | d :: rest => cleanBacktrack rest d dotdot) dotdot
      else if ¬ rooted then
        let out1 := if out.length > 0 then '/' :: out else out
        let out2 := '.' :: '.' :: out1
        cleanLoop rooted fuel cs.tail out2 out2.length
      else
        cleanLoop rooted fuel cs.tail out dotdot
    else
      -- real path element: add slash if needed, then copy the element. In this
      -- branch `c` is not a separator, so the element is `c` followed by the
      -- non-separator span of `cs`.
      let out1 :=
        if (rooted ∧ out.length ≠ 1) ∨ (¬ rooted ∧ out.length ≠ 0) then '/' :: out else out
      let seg := c :: cs.takeWhile (fun ch => ! isPathSeparator ch)
      cleanLoop rooted fuel (cs.dropWhile (fun ch => ! isPathSeparator ch)) (seg.reverse ++ out1) dotdot

/-- Go `filepath.Clean` for unix paths. -/
def filepathClean (path : String) : String :=
  if path = "" then "."
  else
    let chars := path.toList
    let rooted := isPathSeparator (chars.headD ' ')
    let s0 := if rooted then chars.tail else chars
    let out0 : List Char := if rooted then ['/'] else []
    let dotdot := if rooted then 1 else 0
    let out := cleanLoop rooted (s0.length + 1) s0 out0 dotdot
    if out = [] then "." else String.mk out.reverse

/-- Go `filepath.Join` restricted to two elements, as used by this code:
skip leading empty elements, join the rest with the separator, then Clean. -/
def filepathJoin (a b : String) : String :=
  if a ≠ "" then filepathClean (a ++ "/" ++ b)
  else if b ≠ "" then filepathClean b
  else ""

/-- Go `filepath.IsAbs` for unix paths. -/
def filepathIsAbs (path : String) : Bool := stringsHasPre path "/"

/-- Go `filepath.Base` for unix paths (empty volume name). -/
def filepathBase (path : String) : String :=
  if path = "" then "."
  else
    let revNoTrail := path.toList.reverse.dropWhile isPathSeparator
    let base := revNoTrail.takeWhile (fun c => ! isPathSeparator c)
    if base = [] then "/" else String.mk base.reverse

/-- Core of Go `strings.Replace` for a non-empty pattern `o :: os`. Note that
for a non-empty list, dropping the whole pattern length from `c :: cs` is
dropping the pattern tail length from `cs`. The first argument is recursion
fuel, passed as the input length plus one; every step consumes at least one
character. -/
def replaceCore (o : Char) (os new : List Char) : Nat → List Char → Nat → List Char
  | 0, s, _ => s
  | _, [], _ => []
  | fuel + 1, c :: cs, n =>
    if n = 0 then c :: cs
    else if (o :: os).isPrefixOf (c :: cs) then
      new ++ replaceCore o os new fuel (cs.drop os.length) (n - 1)
    else c :: replaceCore o os new fuel cs n

/-- Go `strings.Replace`. The empty-pattern insertion behavior is not
modelled; all call sites in this codebase pass a non-empty pattern. -/
def stringsReplace (s old new : String) (n : Nat) : String :=
  match old.toList with
  | [] => s
  | o :: os => String.mk (replaceCore o os new.toList (s.toList.length + 1) s.toList n)

/-- Go `net/url` hex-digit test. -/
def ishex (c : Char) : Bool :=
  ('0' ≤ c ∧ c ≤ '9') ∨ ('a' ≤ c ∧ c ≤ 'f') ∨ ('A' ≤ c ∧ c ≤ 'F')

/-- Go `net/url` hex-digit value. -/
def unhex (c : Char) : Nat :=
  if '0' ≤ c ∧ c ≤ '9' then c.toNat - '0'.toNat
  else if 'a' ≤ c ∧ c ≤ 'f' then c.toNat - 'a'.toNat + 10
  else if 'A' ≤ c ∧ c ≤ 'F' then c.toNat - 'A'.toNat + 10
  else 0

/-- Core of Go `url.PathUnescape`: decode `%XY` escapes, error (with the
offending one-to-three characters, as Go reports) on a malformed escape. -/
def unescapeCore : List Char → Except String (List Char)
  | [] => Except.ok []
  | c :: rest =>
    if c = '%' then
      match rest with
      | a :: b :: rest' =>
        if ishex a ∧ ishex b then
          (unescapeCore rest').map (fun l => Char.ofNat (16 * unhex a + unhex b) :: l)
        else Except.error ("invalid URL escape " ++ "\"" ++ String.mk ('%' :: rest.take 2) ++ "\"")
      | _ => Except.error ("invalid URL escape " ++ "\"" ++ String.mk ('%' :: rest.take 2) ++ "\"")
    else (unescapeCore rest).map (fun l => c :: l)

/-- `DecodePath` from the `code` package: `url.PathUnescape`. -/
def DecodePath (encodedRelativePath : String) : Except String String :=
  (unescapeCore encodedRelativePath.toList).map String.mk

/-- `ToAbsolutePath` from the `code` package: `filepath.Join(baseDir, relativePath)`. -/
def ToAbsolutePath (baseDir relativePath : String) : String :=
  filepathJoin baseDir relativePath

/-- Dynamic JSON value, the model of both parsed `encoding/json` input and of
Go `interface\x7b\x7d` values produced by unmarshalling. Numbers are modelled at
integer precision (every numeric field consumed by this code is an integer). -/
inductive JValue where
  | null : JValue
  | bool : Bool → JValue
  | num : Int → JValue
  | str : String → JValue
  | arr : List JValue → JValue
  | obj : List (String × JValue) → JValue

deriving Inhabited

/-- JSON whitespace, as in RFC 8259 (and as skipped by `encoding/json`). -/
def isWs (c : Char) : Bool := c = ' ' ∨ c = '\t' ∨ c = '\n' ∨ c = '\r'

/-- String body parser: characters up to the closing quote, decoding the
standard escapes. Returns the decoded characters and the rest of the input. -/
def pStringCore : List Char → Option (List Char × List Char)
  | [] => none
  | c :: cs =>
    if c = '"' then some ([], cs)
    else if c = '\\' then
      match cs with
      | [] => none
      | e :: cs' =>
        if e = '"' ∨ e = '\\' ∨ e = '/' then
          (pStringCore cs').map (fun p => (e :: p.1, p.2))
        else if e = 'b' then (pStringCore cs').map (fun p => (Char.ofNat 8 :: p.1, p.2))
        else if e = 'f' then (pStringCore cs').map (fun p => (Char.ofNat 12 :: p.1, p.2))
        else if e = 'n' then (pStringCore cs').map (fun p => ('\n' :: p.1, p.2))
        else if e = 'r' then (pStringCore cs').map (fun p => ('\r' :: p.1, p.2))
        else if e = 't' then (pStringCore cs').map (fun p => ('\t' :: p.1, p.2))
        else if e = 'u' then
          match cs' with
          | a :: b :: c2 :: d :: cs'' =>
            if ishex a ∧ ishex b ∧ ishex c2 ∧ ishex d then
              (pStringCore cs'').map
                (fun p => (Char.ofNat (4096 * unhex a + 256 * unhex b + 16 * unhex c2 + unhex d) :: p.1, p.2))
            else none
          | _ => none
        else none
    else (pStringCore cs).map (fun p => (c :: p.1, p.2))

/-- Value of a run of decimal digits. -/
def digitsToNat (ds : List Char) : Nat :=
  ds.foldl (fun a c => 10 * a + (c.toNat - 48)) 0

/-- Validate an optional exponent part of a JSON number. -/
def pExpPart : List Char → Option (List Char)
  | [] => some []
  | c :: r =>
    if c = 'e' ∨ c = 'E' then
      let r1 := match r with
        | c2 :: r2 => if c2 = '+' ∨ c2 = '-' then r2 else c2 :: r2
        | [] => []
      let ds := r1.takeWhile Char.isDigit
      if ds = [] then none else some (r1.dropWhile Char.isDigit)
    else some (c :: r)

/-- Validate an optional fraction part (digits are read but, in this
integer-precision model, do not contribute to the value). -/
def pFracPart : List Char → Option (List Char)
  | '.' :: r =>
    let ds := r.takeWhile Char.isDigit
    if ds = [] then none else pExpPart (r.dropWhile Char.isDigit)
  | s => pExpPart s

/-- JSON number parser (integer-precision model). -/
def pNum (s : List Char) : Option (Int × List Char) :=
  let neg := match s with | '-' :: _ => true | _ => false
  let s1 := match s with | '-' :: r => r | _ => s
  let ds := s1.takeWhile Char.isDigit
  if ds = [] then none
  else
    match pFracPart (s1.dropWhile Char.isDigit) with
    | none => none
    | some rest =>
      let v : Int := Int.ofNat (digitsToNat ds)
      some (if neg then -v else v, rest)

mutual

/-- JSON value parser with fuel. -/
def pVal : Nat → List Char → Option (JValue × List Char)
  | 0, _ => none
  | fuel + 1, s =>
    match s.dropWhile isWs with
    | [] => none
    | c :: cs =>
      if c = '{' then
        match cs.dropWhile isWs with
        | '}' :: r => some (JValue.obj [], r)
        | _ => pMembers fuel cs []
      else if c = '[' then
        match cs.dropWhile isWs with
        | ']' :: r => some (JValue.arr [], r)
        | _ => pElems fuel cs []
      else if c = '"' then
        (pStringCore cs).map (fun p => (JValue.str (String.mk p.1), p.2))
      else if c = 't' then
        match cs with | 'r' :: 'u' :: 'e' :: r => some (JValue.bool true, r) | _ => none
      else if c = 'f' then
        match cs with | 'a' :: 'l' :: 's' :: 'e' :: r => some (JValue.bool false, r) | _ => none
      else if c = 'n' then
        match cs with | 'u' :: 'l' :: 'l' :: r => some (JValue.null, r) | _ => none
      else (pNum (c :: cs)).map (fun p => (JValue.num p.1, p.2))

/-- Object members parser (called after `{` or after a comma). -/
def pMembers : Nat → List Char → List (String × JValue) → Option (JValue × List Char)
  | 0, _, _ => none
  | fuel + 1, s, acc =>
    match s.dropWhile isWs with
    | '"' :: cs =>
      match pStringCore cs with
      | none => none
      | some (key, r1) =>
        match r1.dropWhile isWs with
        | ':' :: r2 =>
          match pVal fuel r2 with
          | none => none
          | some (v, r3) =>
            match r3.dropWhile isWs with
            | ',' :: r4 => pMembers fuel r4 (acc ++ [(String.mk key, v)])
            | '}' :: r4 => some (JValue.obj (acc ++ [(String.mk key, v)]), r4)
            | _ => none
        | _ => none
    | _ => none

/-- Array elements parser (called after `[` or after a comma). -/
def pElems : Nat → List Char → List JValue → Option (JValue × List Char)
  | 0, _, _ => none
  | fuel + 1, s, acc =>
    match pVal fuel s with
    | none => none
    | some (v, r1) =>
      match r1.dropWhile isWs with
      | ',' :: r2 => pElems fuel r2 (acc ++ [v])
      | ']' :: r2 => some (JValue.arr (acc ++ [v]), r2)
      | _ => none

end

/-- Parse a whole JSON text: one value, optionally surrounded by whitespace.
`none` models an `encoding/json` syntax error. -/
def jsonParse (s : String) : Option JValue :=
  match pVal (2 * s.length + 4) s.toList with
  | some (v, rest) => if rest.dropWhile isWs = [] then some v else none
  | none => none

/-- Look up an object key the way sequential Go unmarshalling does: the last
occurrence of a duplicated key wins. Field names are matched exactly (Go also
falls back to case-insensitive matching; all inputs considered here use the
canonical casing). -/
def jLookup (fs : List (String × JValue)) (name : String) : Option JValue :=
  (fs.reverse.find? (fun p => p.1 == name)).map (fun p => p.2)

/-- Decode a Go `string` field: `null` keeps the zero value. -/
def decStr : JValue → Except String String
  | JValue.str s => Except.ok s
  | JValue.null => Except.ok ""
  | _ => Except.error "json: cannot unmarshal value into Go field of type string"

/-- Decode a Go `int` field: `null` keeps the zero value. -/
def decInt : JValue → Except String Int
  | JValue.num n => Except.ok n
  | JValue.null => Except.ok 0
  | _ => Except.error "json: cannot unmarshal value into Go field of type int"

/-- Decode a Go `bool` field: `null` keeps the zero value. -/
def decBool : JValue → Except String Bool
  | JValue.bool b => Except.ok b
  | JValue.null => Except.ok false
  | _ => Except.error "json: cannot unmarshal value into Go field of type bool"

/-- Decode a Go `*string` field. -/
def decOptStr : JValue → Except String (Option String)
  | JValue.str s => Except.ok (some s)
  | JValue.null => Except.ok none
  | _ => Except.error "json: cannot unmarshal value into Go field of type *string"

/-- Decode a Go slice field elementwise: `null` keeps the nil slice. -/
def decList {α : Type} (d : JValue → Except String α) : JValue → Except String (List α)
  | JValue.arr xs => xs.mapM d
  | JValue.null => Except.ok []
  | _ => Except.error "json: cannot unmarshal value into Go field of type slice"

/-- Decode a Go `interface\x7b\x7d` field: any value is kept as-is. -/
def decAny : JValue → Except String JValue := Except.ok

/-- Decode one struct field: absent keys keep the given zero value. -/
def decField {α : Type} (fs : List (String × JValue)) (name : String)
    (d : JValue → Except String α) (dflt : α) : Except String α :=
  match jLookup fs name with
  | none => Except.ok dflt
  | some v => d v

/-- `types.Severity` with its `String()` rendering. The Go type is an `int8`
enum `Critical < High < Medium < Low`; only the four enum values occur. -/
inductive Severity where
  | critical : Severity
  | high : Severity
  | medium : Severity
  | low : Severity

deriving DecidableEq, Inhabited

/-- The `String()` method of `types.Severity`. -/
def Severity.goString : Severity → String
  | Severity.critical => "Critical"
  | Severity.high => "High"
  | Severity.medium => "Medium"
  | Severity.low => "Low"

/-- `types.Position`: 0-based line/character pair. -/
structure TPosition where
  line : Int := 0
  character : Int := 0

deriving DecidableEq, Inhabited

/-- `types.Range`. -/
structure TRange where
  Start : TPosition := {}
  End : TPosition := {}

deriving DecidableEq, Inhabited

/-- `types.DataflowElement`. -/
structure DataflowElement where
  position : Int := 0
  filePath : String := ""
  flowRange : TRange := {}
  content : String := ""

deriving DecidableEq, Inhabited

/-- `types.IssueData`. -/
structure IssueData where
  id : String := ""
  title : String := ""
  severity : String := ""
  dataflow : List DataflowElement := []
  cwes : List String := []
  cves : List String := []
  packageName : String := ""
  version : String := ""
  ecosystem : String := ""
  fixedIn : List String := []
  remediation : String := ""
  filePath : String := ""
  line : Int := 0
  column : Int := 0
  message : String := ""
  fingerPrint : String := ""
  isIgnored : Bool := false

deriving DecidableEq, Inhabited

/-- `shortDescription` of a SARIF rule. -/
structure ShortDescription where
  text : String := ""

deriving DecidableEq, Inhabited

/-- The consumed rule properties: `categories` and `cwe`. -/
structure RuleProperties where
  categories : List String := []
  cwe : List String := []

deriving DecidableEq, Inhabited

/-- A SARIF rule. -/
structure Rule where
  id : String := ""
  shortDescription : ShortDescription := {}
  properties : RuleProperties := {}

deriving DecidableEq, Inhabited

/-- `tool.driver` of a SARIF run. -/
structure Driver where
  rules : List Rule := []

deriving DecidableEq, Inhabited

/-- `tool` of a SARIF run. -/
structure Tool where
  driver : Driver := {}

deriving DecidableEq, Inhabited

/-- A SARIF result message. -/
structure SarifMessage where
  text : String := ""

deriving DecidableEq, Inhabited

/-- `artifactLocation` of a physical location. -/
structure ArtifactLocation where
  uri : String := ""

deriving DecidableEq, Inhabited

/-- A SARIF region (1-based coordinates; zero when absent). -/
structure Region where
  startLine : Int := 0
  startColumn : Int := 0
  endLine : Int := 0
  endColumn : Int := 0

deriving DecidableEq, Inhabited

/-- A SARIF physical location. -/
structure PhysicalLocation where
  artifactLocation : ArtifactLocation := {}
  region : Region := {}

deriving DecidableEq, Inhabited

/-- A SARIF location. -/
structure SarifLocation where
  physicalLocation : PhysicalLocation := {}

deriving DecidableEq, Inhabited

/-- A thread-flow location (`location` wrapper). -/
structure ThreadFlowLocation where
  location : SarifLocation := {}

deriving DecidableEq, Inhabited

/-- A SARIF thread flow. -/
structure ThreadFlow where
  locations : List ThreadFlowLocation := []

deriving DecidableEq, Inhabited

/-- A SARIF code flow. -/
structure CodeFlow where
  threadFlows : List ThreadFlow := []

deriving DecidableEq, Inhabited

/-- `ignoredBy` of suppression properties. -/
structure IgnoredBy where
  name : String := ""

deriving DecidableEq, Inhabited

/-- The consumed suppression properties. -/
structure SuppressionProperties where
  category : String := ""
  expiration : Option String := none
  ignoredOn : String := ""
  ignoredBy : IgnoredBy := {}

deriving DecidableEq, Inhabited

/-- A SARIF suppression. The status is the `SuppresionStatus` string type of
`code-client-go`. -/
structure Suppression where
  justification : String := ""
  status : String := ""
  properties : SuppressionProperties := {}

deriving DecidableEq, Inhabited

/-- The `Accepted` constant of the `code-client-go` sarif package. -/
def Accepted : String := "accepted"

/-- The `UnderReview` constant of the `code-client-go` sarif package. -/
def UnderReview : String := "underReview"

/-- The consumed `fingerprints` field: the member with JSON tag `1`. -/
structure Fingerprints where
  num1 : String := ""

deriving DecidableEq, Inhabited

/-- A SARIF result (consumed fields). -/
structure SarifResult where
  ruleId : String := ""
  level : String := ""
  message : SarifMessage := {}
  locations : List SarifLocation := []
  fingerprints : Fingerprints := {}
  codeFlows : List CodeFlow := []
  suppressions : List Suppression := []

deriving DecidableEq, Inhabited

/-- A SARIF run (consumed fields). -/
structure SarifRun where
  tool : Tool := {}
  results : List SarifResult := []

deriving DecidableEq, Inhabited

/-- The inner `Sarif` document struct of `codeClientSarif.SarifResponse`
(consumed fields; `$schema` and `version` are ignored by the converter). -/
structure Sarif where
  runs : List SarifRun := []

deriving DecidableEq, Inhabited

/-- Decode a SARIF region. -/
def decRegion : JValue → Except String Region
  | JValue.obj fs => do
    let sl ← decField fs "startLine" decInt 0
    let sc ← decField fs "startColumn" decInt 0
    let el ← decField fs "endLine" decInt 0
    let ec ← decField fs "endColumn" decInt 0
    Except.ok { startLine := sl, startColumn := sc, endLine := el, endColumn := ec }
  | JValue.null => Except.ok {}
  | _ => Except.error "json: cannot unmarshal value into Go struct Region"

/-- Decode a SARIF artifact location. -/
def decArtifactLocation : JValue → Except String ArtifactLocation
  | JValue.obj fs => do
    let uri ← decField fs "uri" decStr ""
    Except.ok { uri := uri }
  | JValue.null => Except.ok {}
  | _ => Except.error "json: cannot unmarshal value into Go struct ArtifactLocation"

/-- Decode a SARIF physical location. -/
def decPhysicalLocation : JValue → Except String PhysicalLocation
  | JValue.obj fs => do
    let al ← decField fs "artifactLocation" decArtifactLocation {}
    let rg ← decField fs "region" decRegion {}
    Except.ok { artifactLocation := al, region := rg }
  | JValue.null => Except.ok {}
  | _ => Except.error "json: cannot unmarshal value into Go struct PhysicalLocation"

/-- Decode a SARIF location. -/
def decLocation : JValue → Except String SarifLocation
  | JValue.obj fs => do
    let pl ← decField fs "physicalLocation" decPhysicalLocation {}
    Except.ok { physicalLocation := pl }
  | JValue.null => Except.ok {}
  | _ => Except.error "json: cannot unmarshal value into Go struct Location"

/-- Decode a thread-flow location. -/
def decThreadFlowLocation : JValue → Except String ThreadFlowLocation
  | JValue.obj fs => do
    let loc ← decField fs "location" decLocation {}
    Except.ok { location := loc }
  | JValue.null => Except.ok {}
  | _ => Except.error "json: cannot unmarshal value into Go struct ThreadFlowLocation"

/-- Decode a thread flow. -/
def decThreadFlow : JValue → Except String ThreadFlow
  | JValue.obj fs => do
    let locs ← decField fs "locations" (decList decThreadFlowLocation) []
    Except.ok { locations := locs }
  | JValue.null => Except.ok {}
  | _ => Except.error "json: cannot unmarshal value into Go struct ThreadFlow"

/-- Decode a code flow. -/
def decCodeFlow : JValue → Except String CodeFlow
  | JValue.obj fs => do
    let tfs ← decField fs "threadFlows" (decList decThreadFlow) []
    Except.ok { threadFlows := tfs }
  | JValue.null => Except.ok {}
  | _ => Except.error "json: cannot unmarshal value into Go struct CodeFlow"

/-- Decode an `ignoredBy`. -/
def decIgnoredBy : JValue → Except String IgnoredBy
  | JValue.obj fs => do
    let n ← decField fs "name" decStr ""
    Except.ok { name := n }
  | JValue.null => Except.ok {}
  | _ => Except.error "json: cannot unmarshal value into Go struct IgnoredBy"

/-- Decode suppression properties. -/
def decSuppressionProperties : JValue → Except String SuppressionProperties
  | JValue.obj fs => do
    let cat ← decField fs "category" decStr ""
    let exp ← decField fs "expiration" decOptStr none
    let ign ← decField fs "ignoredOn" decStr ""
    let igb ← decField fs "ignoredBy" decIgnoredBy {}
    Except.ok { category := cat, expiration := exp, ignoredOn := ign, ignoredBy := igb }
  | JValue.null => Except.ok {}
  | _ => Except.error "json: cannot unmarshal value into Go struct SuppressionProperties"

/-- Decode a suppression. -/
def decSuppression : JValue → Except String Suppression
  | JValue.obj fs => do
    let j ← decField fs "justification" decStr ""
    let st ← decField fs "status" decStr ""
    let pr ← decField fs "properties" decSuppressionProperties {}
    Except.ok { justification := j, status := st, properties := pr }
  | JValue.null => Except.ok {}
  | _ => Except.error "json: cannot unmarshal value into Go struct Suppression"

/-- Decode the fingerprints member with JSON tag `1`. -/
def decFingerprints : JValue → Except String Fingerprints
  | JValue.obj fs => do
    let n1 ← decField fs "1" decStr ""
    Except.ok { num1 := n1 }
  | JValue.null => Except.ok {}
  | _ => Except.error "json: cannot unmarshal value into Go struct Fingerprints"

/-- Decode a SARIF result. -/
def decResult : JValue → Except String SarifResult
  | JValue.obj fs => do
    let rid ← decField fs "ruleId" decStr ""
    let lvl ← decField fs "level" decStr ""
    let msgText ← decField fs "message"
      (fun v => match v with
        | JValue.obj mfs => decField mfs "text" decStr ""
        | JValue.null => Except.ok ""
        | _ => Except.error "json: cannot unmarshal value into Go struct Message") ""
    let locs ← decField fs "locations" (decList decLocation) []
    let fps ← decField fs "fingerprints" decFingerprints {}
    let cfs ← decField fs "codeFlows" (decList decCodeFlow) []
    let sups ← decField fs "suppressions" (decList decSuppression) []
    Except.ok { ruleId := rid, level := lvl, message := { text := msgText },
                locations := locs, fingerprints := fps, codeFlows := cfs, suppressions := sups }
  | JValue.null => Except.ok {}
  | _ => Except.error "json: cannot unmarshal value into Go struct Result"

/-- Decode a SARIF rule. -/
def decRule : JValue → Except String Rule
  | JValue.obj fs => do
    let rid ← decField fs "id" decStr ""
    let sd ← decField fs "shortDescription"
      (fun v => match v with
        | JValue.obj sfs => do
          let t ← decField sfs "text" decStr ""
          Except.ok ({ text := t } : ShortDescription)
        | JValue.null => Except.ok {}
        | _ => Except.error "json: cannot unmarshal value into Go struct ShortDescription") {}
    let props ← decField fs "properties"
      (fun v => match v with
        | JValue.obj pfs => do
          let cats ← decField pfs "categories" (decList decStr) []
          let cwes ← decField pfs "cwe" (decList decStr) []
          Except.ok ({ categories := cats, cwe := cwes } : RuleProperties)
        | JValue.null => Except.ok {}
        | _ => Except.error "json: cannot unmarshal value into Go struct RuleProperties") {}
    Except.ok { id := rid, shortDescription := sd, properties := props }
  | JValue.null => Except.ok {}
  | _ => Except.error "json: cannot unmarshal value into Go struct Rule"

/-- Decode a SARIF run. -/
def decRun : JValue → Except String SarifRun
  | JValue.obj fs => do
    let tool ← decField fs "tool"
      (fun v => match v with
        | JValue.obj tfs => do
          let drv ← decField tfs "driver"
            (fun dv => match dv with
              | JValue.obj dfs => do
                let rls ← decField dfs "rules" (decList decRule) []
                Except.ok ({ rules := rls } : Driver)
              | JValue.null => Except.ok {}
              | _ => Except.error "json: cannot unmarshal value into Go struct Driver") {}
          Except.ok ({ driver := drv } : Tool)
        | JValue.null => Except.ok {}
        | _ => Except.error "json: cannot unmarshal value into Go struct Tool") {}
    let results ← decField fs "results" (decList decResult) []
    Except.ok { tool := tool, results := results }
  | JValue.null => Except.ok {}
  | _ => Except.error "json: cannot unmarshal value into Go struct Run"

/-- Decode the SARIF document into the inner `Sarif` struct: only `runs` is
consumed; every other key (`$schema`, `version`, and in particular an
enveloping `sarif` key) is an unknown field and is ignored. -/
def decSarif : JValue → Except String Sarif
  | JValue.obj fs => do
    let runs ← decField fs "runs" (decList decRun) []
    Except.ok { runs := runs }
  | JValue.null => Except.ok {}
  | _ => Except.error "json: cannot unmarshal value into Go struct Sarif"

/-- The `issueSeverities` lookup table, a process-wide immutable map. Returns
`none` for the Go two-value lookup miss. -/
def issueSeverities (s : String) : Option Severity :=
  if s = "3" then some Severity.high
  else if s = "2" then some Severity.medium
  else if s = "warning" then some Severity.medium
  else if s = "error" then some Severity.high
  else none

/-- `issueSeverity`: map miss defaults to Low. -/
def issueSeverity (snykSeverity : String) : Severity :=
  match issueSeverities snykSeverity with
  | none => Severity.low
  | some sev => sev

/-- Modelled from the spec: `sarifutils.GetHighestSuppression` of the external
`go-application-framework` collaborator, whose source is not part of this
repository. The spec states the resolver selects the single highest-priority
suppression with Accepted taking precedence; the exact order among the
remaining statuses is left open by the spec, and no theorem below depends on
it. We model priority accepted over underReview over rejected, first
occurrence winning among equals, and an empty status for an empty list. -/
def suppressionPriority (status : String) : Nat :=
  if status = Accepted then 2 else if status = UnderReview then 1 else 0

/-- Modelled from the spec: see `suppressionPriority`. -/
def GetHighestSuppression (suppressions : List Suppression) : Option Suppression × String :=
  match suppressions.foldl
      (fun best s =>
        match best with
        | none => some s
        | some b => if suppressionPriority s.status > suppressionPriority b.status then some s else best)
      none with
  | none => (none, "")
  | some s => (some s, s.status)

/-- Models Go `time.Parse` for the two layouts the converter tries. Only
parse success or failure and the dependence of the parsed value on the input
string are modelled; calendar arithmetic is irrelevant here because no caller
of the converter consumes the parsed instant. A date matches a layout when it
has the same character-class shape (digit for digit, letter for letter,
punctuation equal). -/
def layoutShapeMatches : List Char → List Char → Bool
  | [], [] => true
  | l :: ls, d :: ds =>
    ((l.isDigit ∧ d.isDigit) ∨ (l.isAlpha ∧ d.isAlpha) ∨ (¬ l.isDigit ∧ ¬ l.isAlpha ∧ l = d)) ∧
      layoutShapeMatches ls ds
  | _, _ => false

/-- See `layoutShapeMatches`. The parsed instant is an injective-enough code
of the date string. -/
def timeParse (layout date : String) : Option Int :=
  if layoutShapeMatches layout.toList date.toList then
    some (Int.ofNat (date.toList.foldl (fun a c => 256 * a + c.toNat) 1))
  else none

/-- The RFC3339 layout constant of the Go `time` package. -/
def rfc3339Layout : String := "2006-01-02T15:04:05Z07:00"

/-- `parseDateFromString`: try the two layouts in order and fall back to the
current UTC time, which is the explicit `now` parameter here. -/
def parseDateFromString (now : Int) (date : String) : Int :=
  match timeParse "Mon Jan 02 2006" date with
  | some t => t
  | none =>
    match timeParse rfc3339Layout date with
    | some t => t
    | none => now

/-- Models `time.Time.Format(time.RFC3339)` as an injective rendering of the
modelled instant. -/
def formatRFC3339 (t : Int) : String := "rfc3339:" ++ String.mk (intRepr t)

/-- `parseExpirationDateFromString`. -/
def parseExpirationDateFromString (now : Int) (date : Option String) : String :=
  match date with
  | none => ""
  | some d => formatRFC3339 (parseDateFromString now d)

/-- `IgnoreDetails` of the `code` package. -/
structure IgnoreDetails where
  category : String := ""
  reason : String := ""
  expiration : String := ""
  ignoredOn : Int := 0
  ignoredBy : String := ""
  status : String := ""

deriving DecidableEq, Inhabited

/-- `sarifSuppressionToIgnoreDetails`. -/
def sarifSuppressionToIgnoreDetails (now : Int) : Option Suppression → Option IgnoreDetails
  | none => none
  | some suppression =>
    let reason := if suppression.justification = "" then "None given" else suppression.justification
    some { category := suppression.properties.category,
           reason := reason,
           expiration := parseExpirationDateFromString now suppression.properties.expiration,
           ignoredOn := parseDateFromString now suppression.properties.ignoredOn,
           ignoredBy := suppression.properties.ignoredBy.name,
           status := suppression.status }

/-- `GetIgnoreDetailsFromSuppressions`. -/
def GetIgnoreDetailsFromSuppressions (suppressions : List Suppression) (now : Int) :
    Bool × Option IgnoreDetails :=
  let hs := GetHighestSuppression suppressions
  let isIgnored := hs.2 = Accepted
  (isIgnored, sarifSuppressionToIgnoreDetails now hs.1)

/-- Go `strings.ToLower` (character-wise, which matches Go on ASCII). -/
def stringsToLower (s : String) : String := String.mk (s.toList.map Char.toLower)

/-- `SarifConverter.isSecurityIssue`. -/
def isSecurityIssue (r : Rule) : Bool :=
  r.properties.categories.any (fun category => stringsToLower category = "security")

/-- `SarifConverter.getRule`: linear scan of the rule catalog of the run,
zero-valued rule when missing. -/
def getRule (r : SarifRun) (id : String) : Rule :=
  match r.tool.driver.rules.find? (fun rl => rl.id == id) with
  | some rl => rl
  | none => {}

/-- `SarifConverter.getMessage`: prefix with the short description when
present, hard-truncate at 100 characters with a `...` suffix. -/
def getMessage (r : SarifResult) (rule : Rule) : String :=
  let text := r.message.text
  let text := if rule.shortDescription.text ≠ "" then rule.shortDescription.text ++ ": " ++ text else text
  if text.toList.length > 100 then String.mk (text.toList.take 100) ++ "..." else text

/-- The primary-issue region conversion of `SarifConverter.toIssues`:
1-based SARIF coordinates to a 0-based range. `math.Max` over exactly
representable integers coincides with integer max. -/
def primaryRange (position : Region) : TRange :=
  let startLine := position.startLine - 1
  let endLine := max (position.endLine - 1) startLine
  let startCol := position.startColumn - 1
  let endCol := max (position.endColumn - 1) 0
  { Start := { line := startLine, character := startCol },
    End := { line := endLine, character := endCol } }

/-- The dataflow region conversion of `SarifConverter.getCodeFlow`: unlike
`primaryRange`, the end column is not decremented and no max is applied. -/
def dataflowRange (region : Region) : TRange :=
  { Start := { line := region.startLine - 1, character := region.startColumn - 1 },
    End := { line := region.endLine - 1, character := region.endColumn } }

/-- The dataflow dedup key: `fmt.Sprintf` with format `%sL%4d` applied to the
decoded absolute path and the 1-based start line. -/
def dataflowKey (path : String) (startLine : Int) : String :=
  path ++ "L" ++ goPad4d startLine

/-- The dedup key as the spec words it: the start line zero-padded to four
digits. Stated only for comparison with `dataflowKey`. -/
def specZeroPadKey (path : String) (startLine : Int) : String :=
  path ++ "L" ++ String.mk (List.replicate (4 - (intRepr startLine).length) '0' ++ intRepr startLine)

/-- One thread-flow location step of `SarifConverter.getCodeFlow`. The
accumulator is the dataflow built so far and the dedup map (as a key list). -/
def flowStep (baseDir : String) (acc : List DataflowElement × List String)
    (tFlowLocation : ThreadFlowLocation) : List DataflowElement × List String :=
  let physicalLoc := tFlowLocation.location.physicalLocation
  match DecodePath (ToAbsolutePath baseDir physicalLoc.artifactLocation.uri) with
  | Except.error _ => acc
  | Except.ok path =>
    let region := physicalLoc.region
    let myRange := dataflowRange region
    let key := dataflowKey path region.startLine
    if acc.2.contains key then acc
    else
      (acc.1 ++ [{ position := Int.ofNat acc.1.length, filePath := path, flowRange := myRange }],
       acc.2 ++ [key])

/-- `SarifConverter.getCodeFlow`: walk codeFlows, threadFlows and locations,
skipping locations whose path fails to decode, deduplicating by
`dataflowKey`, first occurrence winning. -/
def getCodeFlow (r : SarifResult) (baseDir : String) : List DataflowElement :=
  (r.codeFlows.foldl
    (fun acc cFlow =>
      cFlow.threadFlows.foldl
        (fun acc2 tFlow => tFlow.locations.foldl (flowStep baseDir) acc2)
        acc)
    ([], [])).1

/-- The issue record built by the body of the result loop of
`SarifConverter.toIssues` for one successfully decoded location: title and
message from the rule, severity from the level, dataflow from the code
flows, the 1-based line and column only when the 0-based range start is
non-negative, and the accepted-status boolean of the suppressions (the
`IgnoreDetails` record produced alongside that boolean is discarded by this
mapper). -/
def buildIssue (r : SarifRun) (result : SarifResult) (baseDir : String) (now : Int)
    (absPath : String) (position : Region) : IssueData :=
  let myRange := primaryRange position
  let testRule := getRule r result.ruleId
  let message := getMessage result testRule
  let title := if testRule.shortDescription.text ≠ "" then testRule.shortDescription.text else testRule.id
  let d : IssueData :=
    { id := result.ruleId, title := title,
      severity := (issueSeverity result.level).goString,
      message := message,
      dataflow := getCodeFlow result baseDir,
      filePath := absPath,
      cwes := testRule.properties.cwe,
      fingerPrint := result.fingerprints.num1 }
  let d := if myRange.Start.line ≥ 0 ∧ myRange.Start.character ≥ 0 then
      { d with line := myRange.Start.line + 1, column := myRange.Start.character + 1 }
    else d
  { d with isIgnored := (GetIgnoreDetailsFromSuppressions result.suppressions now).1 }

/-- One location step of the result loop of `SarifConverter.toIssues`. The
accumulator carries the issues and the joined error so far. A failing path
decode joins the error and skips only this location; the Go loop joins a nil
error once more after computing the message, which is a no-op and is not
repeated here. Non-security results are skipped, as are accepted-suppressed
results when `includeIgnores` is false. -/
def locStep (r : SarifRun) (result : SarifResult) (baseDir : String)
    (includeIgnores : Bool) (now : Int)
    (acc : List IssueData × Option String) (loc : SarifLocation) :
    List IssueData × Option String :=
  match DecodePath (ToAbsolutePath baseDir loc.physicalLocation.artifactLocation.uri) with
  | Except.error e => (acc.1, errorsJoin acc.2 (some e))
  | Except.ok absPath =>
    let testRule := getRule r result.ruleId
    if ! isSecurityIssue testRule then acc
    else
      let isIgnored := (GetIgnoreDetailsFromSuppressions result.suppressions now).1
      if ! includeIgnores && isIgnored then acc
      else
        (acc.1 ++ [buildIssue r result baseDir now absPath loc.physicalLocation.region], acc.2)

/-- `SarifConverter.toIssues`: only the first run is processed; the returned
pair is the issue slice and the joined per-location error. -/
def toIssues (s : Sarif) (baseDir : String) (includeIgnores : Bool) (now : Int) :
    List IssueData × Option String :=
  match s.runs with
  | [] => ([], none)
  | r :: _ =>
    r.results.foldl
      (fun acc result => result.locations.foldl (locStep r result baseDir includeIgnores now) acc)
      ([], none)

/-- `json.Unmarshal(sarifJSON, ..sarifResponse.Sarif)`: parse the raw text and
decode it into the inner `Sarif` struct. -/
def sarifUnmarshal (s : String) : Except String Sarif :=
  match jsonParse s with
  | none => Except.error "invalid JSON input"
  | some v => decSarif v

/-- `ConvertSARIFJSONToIssues`: parse, convert, and return the issues; when
either step produces a non-nil error the Go function returns a nil issue
slice together with the wrapped error, which `Except` models. -/
def ConvertSARIFJSONToIssues (sarifJSON basePath : String) (includeIgnores : Bool) (now : Int) :
    Except String (List IssueData) :=
  match sarifUnmarshal sarifJSON with
  | Except.error e => Except.error ("failed to parse SARIF JSON: " ++ e)
  | Except.ok sarif =>
    match toIssues sarif basePath includeIgnores now with
    | (_, some e) => Except.error ("failed to convert SARIF to issues: " ++ e)
    | (issues, none) => Except.ok issues

/-- Modelled from the spec: the `Identifiers` member of the `ossIssue` struct,
whose declaration is not among the available sources; the converter reads
`issue.Identifiers.CWE` and `issue.Identifiers.CVE`, and Snyk CLI JSON spells
the keys in upper case. -/
structure OssIdentifiers where
  CWE : List String := []
  CVE : List String := []

deriving Inhabited

/-- Modelled from the spec: the `ossIssue` struct declaration is not among
the available sources. Fields and types follow the consumed field accesses of
the conversion code and §6 of the spec: `UpgradePath` is a dynamic slice
(`[1]` undergoes a string type assertion), `From` is a string slice whose
`[1]` is the currently-installed version. -/
structure ossIssue where
  id : String := ""
  name : String := ""
  title : String := ""
  severity : String := ""
  lineNumber : Int := 0
  identifiers : OssIdentifiers := {}
  packageName : String := ""
  packageManager : String := ""
  version : String := ""
  license : String := ""
  isIgnored : Bool := false
  isUpgradable : Bool := false
  isPatchable : Bool := false
  upgradePath : List JValue := []
  From : List String := []
  fixedIn : List String := []

deriving Inhabited

/-- Modelled from the spec: the scan-result envelope
`\x7bvulnerabilities: [...], displayTargetFile: string\x7d` (§6 Input B). -/
structure ScanResult where
  vulnerabilities : List ossIssue := []
  displayTargetFile : String := ""

deriving Inhabited

/-- The `lockFilesToManifestMap` table; the Go map lookup returns the empty
string on a miss. -/
def lockFilesToManifestMap (s : String) : String :=
  if s = "Gemfile.lock" then "Gemfile"
  else if s = "package-lock.json" then "package.json"
  else if s = "yarn.lock" then "package.json"
  else if s = "Gopkg.lock" then "Gopkg.toml"
  else if s = "go.sum" then "go.mod"
  else if s = "composer.lock" then "composer.json"
  else if s = "Podfile.lock" then "Podfile"
  else if s = "poetry.lock" then "pyproject.toml"
  else ""

/-- `getAbsTargetFilePath`: remap a lockfile base name to its manifest and
make the result absolute against the working directory. -/
def getAbsTargetFilePath (workDir displayTargetFile : String) : String :=
  let fileName := filepathBase displayTargetFile
  let manifestFileName := lockFilesToManifestMap fileName
  if manifestFileName = "" then displayTargetFile
  else
    let targetFilePath := stringsReplace displayTargetFile fileName manifestFileName 1
    if filepathIsAbs targetFilePath then targetFilePath
    else filepathJoin workDir targetFilePath

/-- Go dynamic equality `interface\x7b\x7d == string` as used by
`i.UpgradePath[1] == i.From[1]`: true exactly when the dynamic value is a
string with the same contents. -/
def goEqAnyStr : JValue → String → Bool
  | JValue.str t, s => t == s
  | _, _ => false

/-- `ossIssue.getUpgradeMessage`: second upgrade-path entry when present and
a string; the failed type assertion yields the empty message. -/
def getUpgradeMessage (i : ossIssue) : String :=
  if i.upgradePath.length > 1 then
    match i.upgradePath.getD 1 JValue.null with
    | JValue.str upgradePath => "Upgrade to " ++ upgradePath
    | _ => ""
  else ""

/-- `ossIssue.getOutdatedDependencyMessage`: package-manager-aware wording. -/
def getOutdatedDependencyMessage (i : ossIssue) : String :=
  let remediationAdvice := "Your dependencies are out of date, " ++
    "otherwise you would be using a newer " ++ i.name ++ " than " ++
    i.name ++ "@" ++ i.version ++ ". "
  if i.packageManager = "npm" ∨ i.packageManager = "yarn" ∨ i.packageManager = "yarn-workspace" then
    remediationAdvice ++ "Try relocking your lockfile or deleting node_modules and reinstalling" ++
      " your dependencies. If the problem persists, one of your dependencies may be bundling outdated modules."
  else
    remediationAdvice ++ "Try reinstalling your dependencies. If the problem persists, one of your dependencies may be bundling outdated modules."

/-- `ossIssue.getRemediation`. -/
def getRemediation (i : ossIssue) : String :=
  let upgradeMessage := getUpgradeMessage i
  let isOutdated := (upgradeMessage != "") && (i.upgradePath.length > 1 : Bool) &&
    (i.From.length > 1 : Bool) && goEqAnyStr (i.upgradePath.getD 1 JValue.null) (i.From.getD 1 "")
  if i.isUpgradable || i.isPatchable then
    if isOutdated then
      if i.isPatchable then upgradeMessage
      else getOutdatedDependencyMessage i
    else upgradeMessage
  else ""

/-- `toIssue` of the `oss` package (the `workDir` and `scanResult` parameters
are unused in the source as well). -/
def toIssue (_workDir : String) (issue : ossIssue) (_scanResult : ScanResult)
    (targetFilePath : String) : IssueData :=
  let title := issue.title
  let message := title ++ " affecting package " ++ issue.packageName ++ ". " ++ getRemediation issue
  let message := if message.toList.length > 200 then String.mk (message.toList.take 200) ++ "... (Snyk)" else message
  { id := issue.id,
    title := issue.title,
    severity := issue.severity,
    cwes := issue.identifiers.CWE,
    cves := issue.identifiers.CVE,
    packageName := issue.packageName,
    version := issue.version,
    ecosystem := issue.packageManager,
    fixedIn := issue.fixedIn,
    remediation := getRemediation issue,
    filePath := targetFilePath,
    line := issue.lineNumber,
    message := message,
    isIgnored := issue.isIgnored }

/-- One vulnerability step of `convertScanResultToIssues`: the accumulator is
the issues and the per-envelope dedup map (as a key list). -/
def scanStep (workDir : String) (includeIgnores : Bool) (res : ScanResult)
    (acc : List IssueData × List String) (issue : ossIssue) : List IssueData × List String :=
  if ! includeIgnores && issue.isIgnored then acc
  else
    let targetFilePath := getAbsTargetFilePath workDir res.displayTargetFile
    let duplicateKey := targetFilePath ++ "|" ++ issue.id ++ "|" ++ issue.packageName
    if acc.2.contains duplicateKey then acc
    else (acc.1 ++ [toIssue workDir issue res targetFilePath], acc.2 ++ [duplicateKey])

/-- `convertScanResultToIssues`: the dedup map is created fresh for each
envelope. -/
def convertScanResultToIssues (workDir : String) (res : ScanResult) (includeIgnores : Bool) :
    List IssueData :=
  (res.vulnerabilities.foldl (scanStep workDir includeIgnores res) ([], [])).1

/-- `ConvertToIssue`: concatenate the per-envelope conversions. -/
def ConvertToIssue (workDir : String) (scanResults : List ScanResult) (includeIgnores : Bool) :
    List IssueData :=
  scanResults.foldl
    (fun allIssues res => allIssues ++ convertScanResultToIssues workDir res includeIgnores) []

/-- Decode an `ossIssue` from JSON (tags modelled from the spec, see
`ossIssue`). -/
def decOssIssue : JValue → Except String ossIssue
  | JValue.obj fs => do
    let id ← decField fs "id" decStr ""
    let nm ← decField fs "name" decStr ""
    let ttl ← decField fs "title" decStr ""
    let sev ← decField fs "severity" decStr ""
    let ln ← decField fs "lineNumber" decInt 0
    let idents ← decField fs "identifiers"
      (fun v => match v with
        | JValue.obj ifs => do
          let cwe ← decField ifs "CWE" (decList decStr) []
          let cve ← decField ifs "CVE" (decList decStr) []
          Except.ok ({ CWE := cwe, CVE := cve } : OssIdentifiers)
        | JValue.null => Except.ok {}
        | _ => Except.error "json: cannot unmarshal value into Go struct Identifiers") {}
    let pn ← decField fs "packageName" decStr ""
    let pm ← decField fs "packageManager" decStr ""
    let ver ← decField fs "version" decStr ""
    let lic ← decField fs "license" decStr ""
    let ii ← decField fs "isIgnored" decBool false
    let iu ← decField fs "isUpgradable" decBool false
    let ip ← decField fs "isPatchable" decBool false
    let up ← decField fs "upgradePath" (decList decAny) []
    let fr ← decField fs "from" (decList decStr) []
    let fx ← decField fs "fixedIn" (decList decStr) []
    Except.ok { id := id, name := nm, title := ttl, severity := sev, lineNumber := ln,
                identifiers := idents, packageName := pn, packageManager := pm,
                version := ver, license := lic, isIgnored := ii, isUpgradable := iu,
                isPatchable := ip, upgradePath := up, From := fr, fixedIn := fx }
  | JValue.null => Except.ok {}
  | _ => Except.error "json: cannot unmarshal value into Go struct ossIssue"

/-- Decode a scan-result envelope. -/
def decScanResult : JValue → Except String ScanResult
  | JValue.obj fs => do
    let vulns ← decField fs "vulnerabilities" (decList decOssIssue) []
    let dtf ← decField fs "displayTargetFile" decStr ""
    Except.ok { vulnerabilities := vulns, displayTargetFile := dtf }
  | JValue.null => Except.ok {}
  | _ => Except.error "json: cannot unmarshal value into Go struct ScanResult"

/-- `json.Unmarshal(res, ..scanResults)` for the array form. -/
def ossUnmarshalMany (res : String) : Except String (List ScanResult) :=
  match jsonParse res with
  | none => Except.error "invalid JSON input"
  | some v => decList decScanResult v

/-- `json.Unmarshal(res, ..result)` for the single-envelope form. -/
def ossUnmarshalOne (res : String) : Except String ScanResult :=
  match jsonParse res with
  | none => Except.error "invalid JSON input"
  | some v => decScanResult v

/-- `ConvertOssJsonToIssues`: sniff the raw payload with
`strings.HasPrefix(output, "[")`, unmarshal accordingly, join unmarshal
errors with a message embedding the raw payload, and convert. -/
def ConvertOssJsonToIssues (workDir res : String) (includeIgnores : Bool) :
    Except String (List IssueData) :=
  let output := res
  if stringsHasPre output "[" then
    match ossUnmarshalMany res with
    | Except.error e =>
      Except.error (e ++ "\n" ++ "couldn\x27t unmarshal CLI response. Input: " ++ output)
    | Except.ok scanResults =>
      Except.ok (ConvertToIssue workDir scanResults includeIgnores)
  else
    match ossUnmarshalOne res with
    | Except.error e =>
      Except.error (e ++ "\n" ++ "couldn\x27t unmarshal CLI response. Input: " ++ output)
    | Except.ok result =>
      Except.ok (ConvertToIssue workDir [result] includeIgnores)

/-- The security rule of the C7 document. -/
def c7rule : Rule :=
  { id := "r1", shortDescription := { text := "T" },
    properties := { categories := ["security"] } }

/-- The single location of the C7 document. -/
def c7loc : SarifLocation :=
  { physicalLocation :=
    { artifactLocation := { uri := "b.js" },
      region := { startLine := 5, startColumn := 3, endLine := 5, endColumn := 10 } } }

/-- See `c7doc`. -/
def c7result : SarifResult :=
  { ruleId := "r1", level := "error", message := { text := "m" }, locations := [c7loc] }

/-- A SARIF document with one security rule and one result whose single
location carries the region of the C7 instance. -/
def c7doc : Sarif :=
  { runs := [{ tool := { driver := { rules := [c7rule] } }, results := [c7result] }] }

/-- The dedup keys recomputed from emitted dataflow elements: the element
stores the decoded path and the 0-based start line, so the key the code used
is `dataflowKey path (line + 1)`. -/
def flowKeys (l : List DataflowElement) : List String :=
  l.map (fun e => dataflowKey e.filePath (e.flowRange.Start.line + 1))

/-- The invariant carried through the `getCodeFlow` folds. -/
def FlowInv (acc : List DataflowElement × List String) : Prop :=
  (flowKeys acc.1).Nodup
  ∧ (∀ k ∈ flowKeys acc.1, k ∈ acc.2)
  ∧ acc.1.map (fun e => e.position) = (List.range acc.1.length).map Int.ofNat

/-- The SCA dedup key recomputed from an emitted issue: `toIssue` stores the
target path, finding id and package name in the corresponding fields. -/
def issueKeys (l : List IssueData) : List String :=
  l.map (fun d => d.filePath ++ "|" ++ d.id ++ "|" ++ d.packageName)

/-- The invariant carried through the `convertScanResultToIssues` fold. -/
def ScanInv (acc : List IssueData × List String) : Prop :=
  (issueKeys acc.1).Nodup ∧ ∀ k ∈ issueKeys acc.1, k ∈ acc.2

/-- The JSON array with two identical envelopes used to refute C2: the same
vulnerability (id `v1`, package `p`) under the same display target file `f`
appears in two envelopes of one conversion call. -/
def c2json : String :=
  "[\x7b\"vulnerabilities\":[\x7b\"id\":\"v1\",\"packageName\":\"p\",\"title\":\"Ti\",\"severity\":\"high\"\x7d],\"displayTargetFile\":\"f\"\x7d,\x7b\"vulnerabilities\":[\x7b\"id\":\"v1\",\"packageName\":\"p\",\"title\":\"Ti\",\"severity\":\"high\"\x7d],\"displayTargetFile\":\"f\"\x7d]"

/-- The out-of-date test of `getRemediation`: a non-empty upgrade message
whose second upgrade-path entry equals the second `from` entry (the
currently-installed version). -/
def isOutdatedFinding (i : ossIssue) : Bool :=
  (getUpgradeMessage i != "") && (i.upgradePath.length > 1 : Bool) &&
    (i.From.length > 1 : Bool) && goEqAnyStr (i.upgradePath.getD 1 JValue.null) (i.From.getD 1 "")

/-- A finding with no upgrade path, neither upgradable nor patchable, with
package manager npm: the claim expects the package-manager-aware fallback. -/
def c4NoPath : ossIssue := { packageManager := "npm" }

/-- A patchable, out-of-date finding: second upgrade-path entry equals the
second `from` entry. The claim expects a patch message instead of the
upgrade message. -/
def c4Outdated : ossIssue :=
  { isPatchable := true,
    upgradePath := [JValue.bool false, JValue.str "pkg@1.0.0"],
    From := ["app", "pkg@1.0.0"] }

/-- The shape of an issue emitted by the SARIF mapper: a `buildIssue` record
of some result of the run whose rule passed the security filter. -/
def SecShape (run : SarifRun) (b : String) (n : Int) (d : IssueData) : Prop :=
  ∃ result absPath position, result ∈ run.results
    ∧ isSecurityIssue (getRule run result.ruleId) = true
    ∧ d = buildIssue run result b n absPath position

/-- The run of the C9 witness document. -/
def c9rule : Rule :=
  { id := "r1", shortDescription := { text := "T" },
    properties := { categories := ["Security"] } }

/-- The single location of the C9 witness document. -/
def c9loc : SarifLocation :=
  { physicalLocation :=
    { artifactLocation := { uri := "w.js" },
      region := { startLine := 1, startColumn := 1, endLine := 1, endColumn := 2 } } }

/-- See `c9run`. -/
def c9result : SarifResult :=
  { ruleId := "r1", level := "error", message := { text := "m" }, locations := [c9loc] }

def c9run : SarifRun :=
  { tool := { driver := { rules := [c9rule] } }, results := [c9result] }

/-- The document of the C9 witness. -/
def c9doc : Sarif := { runs := [c9run] }

/-- The single-envelope SCA input of the C8 counterexample: one finding with
the unrecognized severity string `purple`. -/
def c8json : String :=
  "\x7b\"vulnerabilities\":[\x7b\"id\":\"v\",\"severity\":\"purple\",\"packageName\":\"q\"\x7d]\x7d"

/-- A bare SARIF 2.1.0 document with one security rule and one result. -/
def c3bare : String :=
  "\x7b\"runs\":[\x7b\"tool\":\x7b\"driver\":\x7b\"rules\":[\x7b\"id\":\"r1\",\"shortDescription\":\x7b\"text\":\"T\"\x7d,\"properties\":\x7b\"categories\":[\"security\"]\x7d\x7d]\x7d\x7d,\"results\":[\x7b\"ruleId\":\"r1\",\"level\":\"warning\",\"message\":\x7b\"text\":\"m\"\x7d,\"locations\":[\x7b\"physicalLocation\":\x7b\"artifactLocation\":\x7b\"uri\":\"b.js\"\x7d,\"region\":\x7b\"startLine\":5,\"startColumn\":3,\"endLine\":5,\"endColumn\":10\x7d\x7d\x7d]\x7d]\x7d]\x7d"

/-- The same document wrapped in the envelope object with a `sarif` key. -/
def c3wrapped : String := "\x7b\"sarif\":" ++ c3bare ++ "\x7d"

/-- The format sniff as the spec words it: whether the payload trimmed of
leading whitespace starts with a bracket. Stated for comparison with the
untrimmed `strings.HasPrefix` sniff the code performs. -/
def specTrimmedSniff (s : String) : Bool :=
  (s.toList.dropWhile isWs).headD ' ' = '['

/-- Whether the path of a location decodes successfully against the base
directory. -/
def locDecodes (b : String) (loc : SarifLocation) : Bool :=
  match DecodePath (ToAbsolutePath b loc.physicalLocation.artifactLocation.uri) with
  | Except.ok _ => true
  | Except.error _ => false

/-- Erase the locations of a result whose paths fail to decode. -/
def eraseRes (b : String) (res : SarifResult) : SarifResult :=
  { res with locations := res.locations.filter (locDecodes b) }

/-- Erase the failing locations of every result of a run. -/
def eraseRun (b : String) (r : SarifRun) : SarifRun :=
  { r with results := r.results.map (eraseRes b) }

/-- Erase the failing locations of a document. -/
def eraseBadLocs (b : String) (s : Sarif) : Sarif :=
  { s with runs := s.runs.map (eraseRun b) }

/-- The security rule of the C1 document. -/
def c1rule : Rule :=
  { id := "r1", shortDescription := { text := "T" },
    properties := { categories := ["Security"] } }

/-- The location of the C1 document whose URI carries a malformed percent
escape, so path decoding fails. -/
def c1locBad : SarifLocation :=
  { physicalLocation :=
    { artifactLocation := { uri := "a%zz.js" },
      region := { startLine := 1, startColumn := 1, endLine := 1, endColumn := 2 } } }

/-- The location of the C1 document that decodes successfully. -/
def c1locGood : SarifLocation :=
  { physicalLocation :=
    { artifactLocation := { uri := "b.js" },
      region := { startLine := 5, startColumn := 3, endLine := 5, endColumn := 10 } } }

/-- The single result of the C1 document: one failing location followed by
one convertible location. -/
def c1result : SarifResult :=
  { ruleId := "r1", level := "error", message := { text := "m" },
    locations := [c1locBad, c1locGood] }

/-- The C1 document. -/
def c1doc : Sarif :=
  { runs := [{ tool := { driver := { rules := [c1rule] } }, results := [c1result] }] }

/-- The raw JSON of the C1 document. -/
def c1json : String :=
  "\x7b\"runs\":[\x7b\"tool\":\x7b\"driver\":\x7b\"rules\":[\x7b\"id\":\"r1\",\"shortDescription\":\x7b\"text\":\"T\"\x7d,\"properties\":\x7b\"categories\":[\"Security\"]\x7d\x7d]\x7d\x7d,\"results\":[\x7b\"ruleId\":\"r1\",\"level\":\"error\",\"message\":\x7b\"text\":\"m\"\x7d,\"locations\":[\x7b\"physicalLocation\":\x7b\"artifactLocation\":\x7b\"uri\":\"a%zz.js\"\x7d,\"region\":\x7b\"startLine\":1,\"startColumn\":1,\"endLine\":1,\"endColumn\":2\x7d\x7d\x7d,\x7b\"physicalLocation\":\x7b\"artifactLocation\":\x7b\"uri\":\"b.js\"\x7d,\"region\":\x7b\"startLine\":5,\"startColumn\":3,\"endLine\":5,\"endColumn\":10\x7d\x7d\x7d]\x7d]\x7d]\x7d"

/-! ## Theorems -/

theorem length_dropWhile_le (p : Char → Bool) (l : List Char) :
    (l.dropWhile p).length ≤ l.length := by
  induction l with
  | nil => simp [List.dropWhile]
  | cons a l ih =>
    by_cases h : p a <;> simp [List.dropWhile, h] <;> omega

theorem foldl_preserve {α β : Type} (f : α → β → α) (P : α → Prop)
    (h : ∀ a b, P a → P (f a b)) : ∀ (l : List β) (a : α), P a → P (l.foldl f a) := by
  intro l
  induction l with
  | nil => intro a ha; simpa using ha
  | cons x xs ih => intro a ha; simp only [List.foldl_cons]; exact ih _ (h a x ha)

/-- C7: the primary-issue range conversion maps every 1-based SARIF region to
a 0-based range with start decremented, end line clamped from below by the
start line, end character clamped from below by zero; on the region
(5,3,5,10) the emitted Issue carries the 1-based Line 5 and Column 3 and the
internal range is Start (4,2), End (4,9). -/
theorem C7_claim :
    (∀ position : Region,
        primaryRange position =
          { Start := { line := position.startLine - 1, character := position.startColumn - 1 },
            End := { line := max (position.startLine - 1) (position.endLine - 1),
                     character := max (position.endColumn - 1) 0 } })
    ∧ primaryRange { startLine := 5, startColumn := 3, endLine := 5, endColumn := 10 } =
        { Start := { line := 4, character := 2 }, End := { line := 4, character := 9 } }
    ∧ (toIssues c7doc "/b" true 0).1.map (fun d => (d.line, d.column)) = [(5, 3)] := by
  refine ⟨fun position => ?_, by decide, by decide⟩
  simp [primaryRange, max_comm]

theorem flowStep_preserves (baseDir : String) :
    ∀ (acc : List DataflowElement × List String) (loc : ThreadFlowLocation),
      FlowInv acc → FlowInv (flowStep baseDir acc loc) := by
  intro acc loc h
  obtain ⟨hnd, hsub, hpos⟩ := h
  simp only [flowStep]
  split
  · exact ⟨hnd, hsub, hpos⟩
  · rename_i path hDec
    split
    · exact ⟨hnd, hsub, hpos⟩
    · rename_i hct
      set region := loc.location.physicalLocation.region with hreg
      set key := dataflowKey path region.startLine with hkeydef
      set elem : DataflowElement :=
        { position := Int.ofNat acc.1.length, filePath := path,
          flowRange := dataflowRange region } with helem
      have hkey : flowKeys (acc.1 ++ [elem]) = flowKeys acc.1 ++ [key] := by
        simp [flowKeys, helem, dataflowRange, hkeydef]
      have hnotmem : key ∉ acc.2 := by
        intro hm
        exact hct (List.elem_eq_true_of_mem hm)
      refine ⟨?_, ?_, ?_⟩
      · rw [hkey, List.nodup_append]
        refine ⟨hnd, List.nodup_singleton _, ?_⟩
        intro a ha hb
        simp only [List.mem_singleton] at hb
        subst hb
        exact hnotmem (hsub _ ha)
      · rw [hkey]
        intro k hk
        rcases List.mem_append.mp hk with hk1 | hk2
        · exact List.mem_append_left _ (hsub k hk1)
        · simp only [List.mem_singleton] at hk2
          subst hk2
          exact List.mem_append_right _ (List.mem_singleton_self _)
      · simp only [List.map_append, List.length_append, List.map_cons, List.map_nil,
          List.length_cons, List.length_nil]
        rw [hpos]
        simp [List.range_succ]

theorem getCodeFlow_inv (r : SarifResult) (baseDir : String) :
    FlowInv ((r.codeFlows.foldl
      (fun acc cFlow =>
        cFlow.threadFlows.foldl
          (fun acc2 tFlow => tFlow.locations.foldl (flowStep baseDir) acc2) acc)
      ([], []))) := by
  refine foldl_preserve _ FlowInv ?_ _ _ ?_
  · intro a cf ha
    refine foldl_preserve _ FlowInv ?_ _ _ ha
    intro a2 tf ha2
    exact foldl_preserve _ FlowInv (flowStep_preserves baseDir) _ _ ha2
  · exact ⟨List.nodup_nil, by simp [flowKeys], by simp⟩

/-- C6 counterexample: the dedup key the extractor computes uses the Go
format verb `%4d`, which left-pads the start line with spaces; the claimed
key zero-pads it. On path `a` and start line 1 the code key is `aL   1`,
not the claimed `aL0001`. -/
theorem C6_counterexample :
    dataflowKey "a" 1 = "aL   1"
    ∧ specZeroPadKey "a" 1 = "aL0001"
    ∧ dataflowKey "a" 1 ≠ specZeroPadKey "a" 1 := by
  refine ⟨rfl, rfl, by decide⟩

/-- C6 amended: flow locations are deduplicated by the key
`path ++ "L" ++ (startLine space-padded to width 4 by %4d)` with first
occurrence winning, so no two emitted DataflowElements share a dedup key, in
particular no two share the same (path, 0-based startLine) pair; and the
Position of each emitted element equals its 0-based index in the
insertion-ordered output list. -/
theorem C6_claim (r : SarifResult) (baseDir : String) :
    (flowKeys (getCodeFlow r baseDir)).Nodup
    ∧ (getCodeFlow r baseDir).map (fun e => e.position)
        = (List.range (getCodeFlow r baseDir).length).map Int.ofNat
    ∧ List.Pairwise
        (fun e1 e2 => ¬ (e1.filePath = e2.filePath ∧ e1.flowRange.Start.line = e2.flowRange.Start.line))
        (getCodeFlow r baseDir) := by
  have h := getCodeFlow_inv r baseDir
  obtain ⟨hnd, _, hpos⟩ := h
  refine ⟨hnd, hpos, ?_⟩
  have hp : List.Pairwise (fun e1 e2 : DataflowElement =>
      dataflowKey e1.filePath (e1.flowRange.Start.line + 1) ≠
      dataflowKey e2.filePath (e2.flowRange.Start.line + 1)) (getCodeFlow r baseDir) := by
    have h2 : (List.map (fun e => dataflowKey e.filePath (e.flowRange.Start.line + 1))
        (getCodeFlow r baseDir)).Pairwise (· ≠ ·) := hnd
    exact (List.pairwise_map).mp h2
  refine hp.imp ?_
  intro e1 e2 hne ⟨hfp, hline⟩
  exact hne (by rw [hfp, hline])

theorem scanStep_preserves (workDir : String) (includeIgnores : Bool) (res : ScanResult) :
    ∀ (acc : List IssueData × List String) (issue : ossIssue),
      ScanInv acc → ScanInv (scanStep workDir includeIgnores res acc issue) := by
  intro acc issue h
  obtain ⟨hnd, hsub⟩ := h
  simp only [scanStep]
  split
  · exact ⟨hnd, hsub⟩
  · split
    · exact ⟨hnd, hsub⟩
    · rename_i hct
      set tfp := getAbsTargetFilePath workDir res.displayTargetFile with htfp
      set key := tfp ++ "|" ++ issue.id ++ "|" ++ issue.packageName with hkeydef
      have hkey : issueKeys (acc.1 ++ [toIssue workDir issue res tfp])
          = issueKeys acc.1 ++ [key] := by
        simp [issueKeys, toIssue, hkeydef]
      have hnotmem : key ∉ acc.2 := by
        intro hm
        exact hct (List.elem_eq_true_of_mem hm)
      constructor
      · rw [hkey, List.nodup_append]
        refine ⟨hnd, List.nodup_singleton _, ?_⟩
        intro a ha hb
        simp only [List.mem_singleton] at hb
        subst hb
        exact hnotmem (hsub _ ha)
      · rw [hkey]
        intro k hk
        rcases List.mem_append.mp hk with hk1 | hk2
        · exact List.mem_append_left _ (hsub k hk1)
        · simp only [List.mem_singleton] at hk2
          subst hk2
          exact List.mem_append_right _ (List.mem_singleton_self _)

/-- C2 counterexample: the dedup map of `convertScanResultToIssues` is
created fresh per envelope, so the same finding in two envelopes of one
`ConvertOssJsonToIssues` call is emitted twice: both returned issues carry
the dedup key `f|v1|p`, refuting first-occurrence-wins across the whole
conversion call. -/
theorem C2_counterexample :
    (ConvertOssJsonToIssues "/w" c2json false).toOption.map issueKeys
      = some ["f|v1|p", "f|v1|p"]
    ∧ ¬ (["f|v1|p", "f|v1|p"] : List String).Nodup := by
  exact ⟨rfl, by decide⟩

/-- C2 amended: deduplication by the key targetPath, findingID and
packageName joined with bars holds per envelope, not across the whole
conversion call: within the issues produced from one scan-result envelope no
two share the key, while duplicates recurring in different envelopes are
each emitted (see the counterexample). -/
theorem C2_claim (workDir : String) (res : ScanResult) (includeIgnores : Bool) :
    (issueKeys (convertScanResultToIssues workDir res includeIgnores)).Nodup := by
  have h : ScanInv (res.vulnerabilities.foldl (scanStep workDir includeIgnores res) ([], [])) := by
    refine foldl_preserve _ ScanInv (scanStep_preserves workDir includeIgnores res) _ _ ?_
    exact ⟨List.nodup_nil, by simp [issueKeys]⟩
  exact h.1

/-- C4 counterexample: with no upgrade path and no patch the remediation is
the empty string, not the package-manager-aware out-of-date fallback; and
for a patchable out-of-date finding the remediation is exactly the upgrade
message, not a patch message preferred instead of it. -/
theorem C4_counterexample :
    getRemediation c4NoPath = ""
    ∧ getOutdatedDependencyMessage c4NoPath ≠ ""
    ∧ getRemediation c4Outdated = "Upgrade to pkg@1.0.0"
    ∧ getRemediation c4Outdated = getUpgradeMessage c4Outdated := by
  refine ⟨rfl, by decide, rfl, rfl⟩

/-- C4 amended: remediation is computed only for upgradable or patchable
findings: out-of-date patchable findings get the upgrade message,
out-of-date non-patchable (hence upgradable) findings get the
package-manager-aware out-of-date message, all other upgradable-or-patchable
findings get the (possibly empty) upgrade message, and findings that are
neither upgradable nor patchable get an empty remediation; the out-of-date
message uses lockfile wording for npm, yarn and yarn-workspace and generic
wording otherwise. -/
theorem C4_claim (i : ossIssue) :
    (i.isUpgradable = false → i.isPatchable = false → getRemediation i = "")
    ∧ (isOutdatedFinding i = true → i.isPatchable = true →
        getRemediation i = getUpgradeMessage i)
    ∧ (isOutdatedFinding i = true → i.isPatchable = false → i.isUpgradable = true →
        getRemediation i = getOutdatedDependencyMessage i)
    ∧ (isOutdatedFinding i = false → (i.isUpgradable = true ∨ i.isPatchable = true) →
        getRemediation i = getUpgradeMessage i)
    ∧ ((i.packageManager = "npm" ∨ i.packageManager = "yarn" ∨ i.packageManager = "yarn-workspace") →
        ∃ p, getOutdatedDependencyMessage i =
          p ++ ("Try relocking your lockfile or deleting node_modules and reinstalling" ++
            " your dependencies. If the problem persists, one of your dependencies may be bundling outdated modules."))
    ∧ (¬ (i.packageManager = "npm" ∨ i.packageManager = "yarn" ∨ i.packageManager = "yarn-workspace") →
        ∃ p, getOutdatedDependencyMessage i =
          p ++ "Try reinstalling your dependencies. If the problem persists, one of your dependencies may be bundling outdated modules.") := by
  refine ⟨?_, ?_, ?_, ?_, ?_, ?_⟩
  · intro hu hp
    simp [getRemediation, hu, hp]
  · intro ho hp
    unfold isOutdatedFinding at ho
    simp only [getRemediation]
    rw [ho]
    simp [hp]
  · intro ho hp hu
    unfold isOutdatedFinding at ho
    simp only [getRemediation]
    rw [ho]
    simp [hp, hu]
  · intro ho hup
    unfold isOutdatedFinding at ho
    rcases hup with hu | hp
    · simp only [getRemediation]
      rw [ho]
      simp [hu]
    · simp only [getRemediation]
      rw [ho]
      simp [hp]
  · intro hpm
    refine ⟨"Your dependencies are out of date, " ++
      "otherwise you would be using a newer " ++ i.name ++ " than " ++
      i.name ++ "@" ++ i.version ++ ". ", ?_⟩
    simp only [getOutdatedDependencyMessage]
    rw [if_pos hpm]
    simp [String.append_assoc]
  · intro hpm
    refine ⟨"Your dependencies are out of date, " ++
      "otherwise you would be using a newer " ++ i.name ++ " than " ++
      i.name ++ "@" ++ i.version ++ ". ", ?_⟩
    simp only [getOutdatedDependencyMessage]
    rw [if_neg hpm]

/-- C4 witness: the amended theorem applied at the two concrete findings. -/
theorem C4_witness :
    getRemediation c4NoPath = ""
    ∧ getRemediation c4Outdated = getUpgradeMessage c4Outdated
    ∧ (∃ p, getOutdatedDependencyMessage c4NoPath =
        p ++ ("Try relocking your lockfile or deleting node_modules and reinstalling" ++
          " your dependencies. If the problem persists, one of your dependencies may be bundling outdated modules.")) := by
  refine ⟨(C4_claim c4NoPath).1 rfl rfl,
          (C4_claim c4Outdated).2.1 (by decide) rfl,
          (C4_claim c4NoPath).2.2.2.2.1 (Or.inl rfl)⟩

theorem foldl_preserve_mem {α β : Type} (f : α → β → α) (P : α → Prop) :
    ∀ (l : List β), (∀ a b, b ∈ l → P a → P (f a b)) → ∀ (a : α), P a → P (l.foldl f a) := by
  intro l
  induction l with
  | nil => intro _ a ha; simpa using ha
  | cons x xs ih =>
    intro h a ha
    simp only [List.foldl_cons]
    exact ih (fun a b hb => h a b (List.mem_cons_of_mem _ hb)) _ (h a x (List.mem_cons_self _ _) ha)

theorem buildIssue_id (r : SarifRun) (result : SarifResult) (baseDir : String) (now : Int)
    (absPath : String) (position : Region) :
    (buildIssue r result baseDir now absPath position).id = result.ruleId := by
  simp only [buildIssue]
  split <;> rfl

theorem buildIssue_severity (r : SarifRun) (result : SarifResult) (baseDir : String) (now : Int)
    (absPath : String) (position : Region) :
    (buildIssue r result baseDir now absPath position).severity
      = (issueSeverity result.level).goString := by
  simp only [buildIssue]
  split <;> rfl

theorem locStep_mem (r : SarifRun) (result : SarifResult) (b : String) (inc : Bool) (n : Int)
    (acc : List IssueData × Option String) (loc : SarifLocation) :
    ∀ d ∈ (locStep r result b inc n acc loc).1,
      d ∈ acc.1
      ∨ (isSecurityIssue (getRule r result.ruleId) = true
          ∧ ∃ absPath, d = buildIssue r result b n absPath loc.physicalLocation.region) := by
  intro d hd
  simp only [locStep] at hd
  split at hd
  · exact Or.inl hd
  · rename_i absPath hDec
    split at hd
    · exact Or.inl hd
    · rename_i hsec
      split at hd
      · exact Or.inl hd
      · rcases List.mem_append.mp hd with h1 | h2
        · exact Or.inl h1
        · simp only [List.mem_singleton] at h2
          refine Or.inr ⟨?_, absPath, h2⟩
          simpa using hsec

/-- Every issue of the list component of `toIssues` is a `buildIssue` record
of some result of the first run whose rule passed the security filter. -/
theorem toIssues_shape (s : Sarif) (b : String) (inc : Bool) (n : Int)
    (run : SarifRun) (rest : List SarifRun) (hruns : s.runs = run :: rest) :
    ∀ d ∈ (toIssues s b inc n).1, SecShape run b n d := by
  unfold toIssues
  rw [hruns]
  refine foldl_preserve_mem _
    (fun (acc : List IssueData × Option String) => ∀ d ∈ acc.1, SecShape run b n d)
    _ ?_ _ (by simp)
  intro acc result hres hP
  refine foldl_preserve _
    (fun (acc : List IssueData × Option String) => ∀ d ∈ acc.1, SecShape run b n d) ?_ _ _ hP
  intro a loc ha d hd
  rcases locStep_mem run result b inc n a loc d hd with h1 | ⟨hsec, absPath, hb⟩
  · exact ha d h1
  · exact ⟨result, absPath, loc.physicalLocation.region, hres, hsec, hb⟩

/-- C9: every Issue emitted by the SARIF conversion originates from a rule
whose category list contains security case-insensitively; the rule is looked
up by the ruleID stored in the issue (a missing rule yields the zero-valued
Rule, which has no categories and is filtered out). -/
theorem C9_claim (s : Sarif) (b : String) (inc : Bool) (n : Int)
    (run : SarifRun) (rest : List SarifRun) (hruns : s.runs = run :: rest) :
    ∀ d ∈ (toIssues s b inc n).1, isSecurityIssue (getRule run d.id) = true := by
  intro d hd
  obtain ⟨result, absPath, position, _, hsec, hb⟩ := toIssues_shape s b inc n run rest hruns d hd
  rw [hb, buildIssue_id]
  exact hsec

/-- C9 witness: the security-filter theorem applied to a concrete document
and to the concrete issue it emits, whose rule carries the mixed-case
category `Security`. -/
theorem C9_witness :
    isSecurityIssue (getRule c9run ((toIssues c9doc "/b" true 0).1.headD {}).id) = true := by
  refine C9_claim c9doc "/b" true 0 c9run [] rfl ((toIssues c9doc "/b" true 0).1.headD {}) ?_
  decide

/-- C8 counterexample: the SCA mapper copies the severity string of the
finding into the Issue verbatim, so an unrecognized SCA severity does not
default to Low: the emitted severity is `purple`, which is none of the enum
renderings. -/
theorem C8_counterexample :
    (ConvertOssJsonToIssues "/w" c8json true).toOption.map (List.map (fun d => d.severity))
      = some ["purple"]
    ∧ ¬ ("purple" = "Critical" ∨ "purple" = "High" ∨ "purple" = "Medium" ∨ "purple" = "Low") := by
  exact ⟨rfl, by decide⟩

theorem issueSeverity_range (level : String) :
    ((issueSeverity level).goString = "High"
      ∨ (issueSeverity level).goString = "Medium"
      ∨ (issueSeverity level).goString = "Low") := by
  unfold issueSeverity issueSeverities
  split
  · simp [Severity.goString]
  · rename_i sev h
    split_ifs at h
    all_goals first
      | exact Option.noConfusion h
      | (injection h with h; cases h; decide)

/-- C8 amended: SARIF severities are classified through the
`issueSeverities` table with unrecognized encodings defaulting to Low, so
every SARIF-emitted Issue severity is one of High, Medium, Low (Critical is
never produced by this table); SCA-emitted Issues carry the raw severity
string of the finding unmapped, with no default. -/
theorem C8_claim :
    (∀ level : String, ¬ (level = "3" ∨ level = "2" ∨ level = "warning" ∨ level = "error") →
        issueSeverity level = Severity.low)
    ∧ (∀ (s : Sarif) (b : String) (inc : Bool) (n : Int), ∀ d ∈ (toIssues s b inc n).1,
        d.severity = "High" ∨ d.severity = "Medium" ∨ d.severity = "Low")
    ∧ (∀ (workDir : String) (issue : ossIssue) (res : ScanResult) (targetFilePath : String),
        (toIssue workDir issue res targetFilePath).severity = issue.severity) := by
  refine ⟨?_, ?_, ?_⟩
  · intro level h
    unfold issueSeverity issueSeverities
    push_neg at h
    obtain ⟨h3, h2, hw, he⟩ := h
    simp [h3, h2, hw, he]
  · intro s b inc n d hd
    cases hruns : s.runs with
    | nil =>
      unfold toIssues at hd
      rw [hruns] at hd
      simp at hd
    | cons run rest =>
      obtain ⟨result, absPath, position, _, _, hb⟩ := toIssues_shape s b inc n run rest hruns d hd
      rw [hb, buildIssue_severity]
      exact issueSeverity_range result.level
  · intro workDir issue res targetFilePath
    rfl

/-- C8 witness: the amended theorem applied at the unrecognized SARIF level
`banana`, at a concrete SARIF conversion, and at a concrete SCA finding. -/
theorem C8_witness :
    issueSeverity "banana" = Severity.low
    ∧ (∀ d ∈ (toIssues c7doc "/w" true 0).1,
        d.severity = "High" ∨ d.severity = "Medium" ∨ d.severity = "Low")
    ∧ (toIssue "/w" c4NoPath {} "p").severity = c4NoPath.severity := by
  refine ⟨C8_claim.1 "banana" (by decide), C8_claim.2.1 c7doc "/w" true 0,
    C8_claim.2.2 "/w" c4NoPath {} "p"⟩

theorem GetIgnoreFst (suppressions : List Suppression) (now : Int) :
    (GetIgnoreDetailsFromSuppressions suppressions now).1
      = decide ((GetHighestSuppression suppressions).2 = Accepted) := rfl

/-- C10: the SARIF conversion is independent of the ambient clock. The
suppression date parsing falls back to the current time, but the resulting
`IgnoreDetails` record is dropped by the mapper: only the accepted-status
boolean reaches the Issue, so two conversions of the same input at
different times coincide, errors included. -/
theorem C10_claim (sarifJSON basePath : String) (includeIgnores : Bool) (t1 t2 : Int) :
    ConvertSARIFJSONToIssues sarifJSON basePath includeIgnores t1
      = ConvertSARIFJSONToIssues sarifJSON basePath includeIgnores t2 := by
  have hb : ∀ (r : SarifRun) (res : SarifResult) (a : String) (p : Region),
      buildIssue r res basePath t1 a p = buildIssue r res basePath t2 a p := by
    intro r res a p
    simp only [buildIssue, GetIgnoreFst]
  have hstep : ∀ (r : SarifRun) (res : SarifResult)
      (acc : List IssueData × Option String) (loc : SarifLocation),
      locStep r res basePath includeIgnores t1 acc loc
        = locStep r res basePath includeIgnores t2 acc loc := by
    intro r res acc loc
    simp only [locStep, GetIgnoreFst, hb]
  have htoi : ∀ s : Sarif, toIssues s basePath includeIgnores t1
      = toIssues s basePath includeIgnores t2 := by
    intro s
    unfold toIssues
    cases s.runs with
    | nil => rfl
    | cons run rest =>
      have hfn : ∀ result : SarifResult,
          locStep run result basePath includeIgnores t1
            = locStep run result basePath includeIgnores t2 := by
        intro result
        funext a l
        exact hstep run result a l
      simp only [hfn]
  unfold ConvertSARIFJSONToIssues
  cases sarifUnmarshal sarifJSON with
  | error e => rfl
  | ok s =>
    simp only [htoi]

/-- C3 counterexample: the converter unmarshals the input directly into the
inner SARIF document struct, so the `sarif`-wrapped envelope is not
unwrapped: the bare form yields one issue, the wrapped form yields none. -/
theorem C3_counterexample :
    (ConvertSARIFJSONToIssues c3bare "/b" true 0).toOption.map List.length = some 1
    ∧ (ConvertSARIFJSONToIssues c3wrapped "/b" true 0).toOption.map List.length = some 0 := by
  exact ⟨rfl, rfl⟩

/-- C3 amended: only the bare SARIF document form is consumed. An envelope
object whose single key is `sarif` parses successfully but the key is an
unknown field of the document struct and is ignored, so the conversion
returns an empty issue list with no error, for any value under the key. -/
theorem C3_claim (s : String) (v : JValue) (b : String) (inc : Bool) (n : Int)
    (h : jsonParse s = some (JValue.obj [("sarif", v)])) :
    ConvertSARIFJSONToIssues s b inc n = Except.ok [] := by
  unfold ConvertSARIFJSONToIssues sarifUnmarshal
  rw [h]
  rfl

/-- C3 witness: the amended theorem applied to the smallest wrapped
envelope. -/
theorem C3_witness : ConvertSARIFJSONToIssues "\x7b\"sarif\":null\x7d" "/b" true 0 = Except.ok [] :=
  C3_claim "\x7b\"sarif\":null\x7d" JValue.null "/b" true 0 rfl

theorem pElems_arr : ∀ (fuel : Nat) (s : List Char) (acc : List JValue) (v : JValue) (r : List Char),
    pElems fuel s acc = some (v, r) → ∃ xs, v = JValue.arr xs := by
  intro fuel
  induction fuel with
  | zero => intro s acc v r h; simp [pElems] at h
  | succ f ih =>
    intro s acc v r h
    simp only [pElems] at h
    split at h
    · exact absurd h (by simp)
    · split at h
      · exact ih _ _ _ _ h
      · simp only [Option.some.injEq, Prod.mk.injEq] at h
        exact ⟨_, h.1.symm⟩
      · exact absurd h (by simp)

/-- A payload whose leading-whitespace-trimmed form starts with a bracket
parses, if it parses at all, to a JSON array. -/
theorem jsonParse_bracket (s : String) (hTrim : specTrimmedSniff s = true) :
    ∀ v, jsonParse s = some v → ∃ xs, v = JValue.arr xs := by
  intro v h
  obtain ⟨cs, hd⟩ : ∃ cs, s.toList.dropWhile isWs = '[' :: cs := by
    unfold specTrimmedSniff at hTrim
    cases hd : s.toList.dropWhile isWs with
    | nil => rw [hd] at hTrim; simp at hTrim
    | cons c cs =>
      rw [hd] at hTrim
      simp only [List.headD_cons, decide_eq_true_eq] at hTrim
      subst hTrim
      exact ⟨cs, rfl⟩
  unfold jsonParse at h
  obtain ⟨f, hf⟩ : ∃ f, 2 * s.length + 4 = f + 1 := ⟨2 * s.length + 3, by omega⟩
  rw [hf] at h
  cases hp : pVal (f + 1) s.toList with
  | none => rw [hp] at h; simp at h
  | some p =>
    rw [hp] at h
    have hv : v = p.1 := by
      rcases p with ⟨v2, rest⟩
      simp only at h
      split at h
      · simp only [Option.some.injEq] at h; exact h.symm
      · exact absurd h (by simp)
    subst hv
    simp only [pVal] at hp
    rw [hd] at hp
    simp only [reduceIte, Char.reduceEq] at hp
    rcases p with ⟨v2, rest⟩
    split at hp
    · simp only [Option.some.injEq, Prod.mk.injEq] at hp
      exact ⟨[], hp.1.symm⟩
    · exact pElems_arr _ _ _ _ _ hp

/-- C5 counterexample: the payload with a leading space whose trimmed form
starts with a bracket: the code sniffs the untrimmed payload, takes the
single-envelope branch, and fails to unmarshal the array into the envelope
struct, returning an error instead of parsing the array form. -/
theorem C5_counterexample :
    specTrimmedSniff " []" = true
    ∧ stringsHasPre " []" "[" = false
    ∧ (ConvertOssJsonToIssues "/w" " []" true).toOption = none := by
  exact ⟨rfl, rfl, rfl⟩

/-- C5 amended: the array-versus-single decision is made on the raw,
untrimmed payload with `strings.HasPrefix`: a payload starting with a
bracket is parsed as an array of envelopes, any other payload as a single
envelope, even when only leading whitespace precedes the bracket, in which
case the single-envelope unmarshal fails; malformed JSON in either branch
fails with an error embedding the raw payload. -/
theorem C5_claim (workDir res : String) (includeIgnores : Bool) :
    (stringsHasPre res "[" = true →
      ConvertOssJsonToIssues workDir res includeIgnores =
        (match ossUnmarshalMany res with
         | Except.error e =>
           Except.error (e ++ "\n" ++ "couldn\x27t unmarshal CLI response. Input: " ++ res)
         | Except.ok scanResults =>
           Except.ok (ConvertToIssue workDir scanResults includeIgnores)))
    ∧ (stringsHasPre res "[" = false →
      ConvertOssJsonToIssues workDir res includeIgnores =
        (match ossUnmarshalOne res with
         | Except.error e =>
           Except.error (e ++ "\n" ++ "couldn\x27t unmarshal CLI response. Input: " ++ res)
         | Except.ok result =>
           Except.ok (ConvertToIssue workDir [result] includeIgnores)))
    ∧ (jsonParse res = none →
        ∃ e, ConvertOssJsonToIssues workDir res includeIgnores = Except.error e
          ∧ ∃ p, e = p ++ res)
    ∧ (stringsHasPre res "[" = false → specTrimmedSniff res = true →
        ∃ e, ConvertOssJsonToIssues workDir res includeIgnores = Except.error e
          ∧ ∃ p, e = p ++ res) := by
  refine ⟨?_, ?_, ?_, ?_⟩
  · intro h
    unfold ConvertOssJsonToIssues
    rw [if_pos h]
  · intro h
    unfold ConvertOssJsonToIssues
    rw [if_neg (by simp [h])]
  · intro h
    unfold ConvertOssJsonToIssues
    by_cases hp : stringsHasPre res "[" = true
    · rw [if_pos hp]
      unfold ossUnmarshalMany
      rw [h]
      exact ⟨_, rfl, _, rfl⟩
    · rw [if_neg hp]
      unfold ossUnmarshalOne
      rw [h]
      exact ⟨_, rfl, _, rfl⟩
  · intro h1 h2
    unfold ConvertOssJsonToIssues
    rw [if_neg (by simp [h1])]
    unfold ossUnmarshalOne
    cases hp : jsonParse res with
    | none => exact ⟨_, rfl, _, rfl⟩
    | some v =>
      obtain ⟨xs, hxs⟩ := jsonParse_bracket res h2 v hp
      subst hxs
      exact ⟨_, rfl, _, rfl⟩

/-- C5 witness: the amended theorem applied at the concrete payloads, with
each hypothesis discharged by evaluation. -/
theorem C5_witness :
    (ConvertOssJsonToIssues "/w" "[]" true =
      (match ossUnmarshalMany "[]" with
       | Except.error e =>
         Except.error (e ++ "\n" ++ "couldn\x27t unmarshal CLI response. Input: " ++ "[]")
       | Except.ok scanResults => Except.ok (ConvertToIssue "/w" scanResults true)))
    ∧ (∃ e, ConvertOssJsonToIssues "/w" " []" true = Except.error e ∧ ∃ p, e = p ++ " []")
    ∧ (∃ e, ConvertOssJsonToIssues "/w" "nope" true = Except.error e ∧ ∃ p, e = p ++ "nope") := by
  refine ⟨(C5_claim "/w" "[]" true).1 rfl,
          (C5_claim "/w" " []" true).2.2.2 rfl rfl,
          (C5_claim "/w" "nope" true).2.2.1 rfl⟩

/-- `locStep` reads the run only through its tool section and the result
only through its non-location fields, so erasure does not change it. -/
theorem locStep_erase (b : String) (r : SarifRun) (res : SarifResult) (inc : Bool) (n : Int) :
    locStep (eraseRun b r) (eraseRes b res) b inc n = locStep r res b inc n := rfl

/-- Each location step either joins a decode error, leaves the accumulator
unchanged, or appends one issue, independently of the accumulator. -/
theorem locStep_cases (r : SarifRun) (res : SarifResult) (b : String) (inc : Bool) (n : Int)
    (loc : SarifLocation) :
    (locDecodes b loc = false
      ∧ ∃ e, ∀ acc, locStep r res b inc n acc loc = (acc.1, errorsJoin acc.2 (some e)))
    ∨ (locDecodes b loc = true
        ∧ ((∀ acc, locStep r res b inc n acc loc = acc)
            ∨ ∃ d, ∀ acc, locStep r res b inc n acc loc = (acc.1 ++ [d], acc.2))) := by
  cases hDec : DecodePath (ToAbsolutePath b loc.physicalLocation.artifactLocation.uri) with
  | error e =>
    refine Or.inl ⟨by simp [locDecodes, hDec], e, fun acc => ?_⟩
    simp [locStep, hDec]
  | ok path =>
    by_cases hsec : isSecurityIssue (getRule r res.ruleId) = true
    · by_cases hig : (! inc && (GetIgnoreDetailsFromSuppressions res.suppressions n).1) = true
      · refine Or.inr ⟨by simp [locDecodes, hDec], Or.inl fun acc => ?_⟩
        simp [locStep, hDec, hsec, hig]
      · refine Or.inr ⟨by simp [locDecodes, hDec],
          Or.inr ⟨buildIssue r res b n path loc.physicalLocation.region, fun acc => ?_⟩⟩
        simp [locStep, hDec, hsec, hig]
    · refine Or.inr ⟨by simp [locDecodes, hDec], Or.inl fun acc => ?_⟩
      have hsec' : isSecurityIssue (getRule r res.ruleId) = false := by
        revert hsec; cases isSecurityIssue (getRule r res.ruleId) <;> simp
      simp [locStep, hDec, hsec']

/-- The issue component of the location fold depends on the accumulator only
through its issue component. -/
theorem locFold_fst (r : SarifRun) (res : SarifResult) (b : String) (inc : Bool) (n : Int) :
    ∀ (locs : List SarifLocation) (acc acc' : List IssueData × Option String),
      acc.1 = acc'.1 →
      (locs.foldl (locStep r res b inc n) acc).1 = (locs.foldl (locStep r res b inc n) acc').1 := by
  intro locs
  induction locs with
  | nil => intro acc acc' h; simpa using h
  | cons loc rest ih =>
    intro acc acc' h
    simp only [List.foldl_cons]
    rcases locStep_cases r res b inc n loc with ⟨_, e, hstep⟩ | ⟨_, hstep | ⟨d, hstep⟩⟩
    · rw [hstep acc, hstep acc']
      exact ih _ _ h
    · rw [hstep acc, hstep acc']
      exact ih _ _ h
    · rw [hstep acc, hstep acc']
      exact ih _ _ (by simp [h])

/-- Dropping the undecodable locations does not change the issue component
of the location fold. -/
theorem locFold_filter (r : SarifRun) (res : SarifResult) (b : String) (inc : Bool) (n : Int) :
    ∀ (locs : List SarifLocation) (acc : List IssueData × Option String),
      ((locs.filter (locDecodes b)).foldl (locStep r res b inc n) acc).1
        = (locs.foldl (locStep r res b inc n) acc).1 := by
  intro locs
  induction locs with
  | nil => intro acc; rfl
  | cons loc rest ih =>
    intro acc
    rcases locStep_cases r res b inc n loc with ⟨hld, e, hstep⟩ | ⟨hld, hstep⟩
    · rw [List.filter_cons_of_neg (by simp [hld])]
      simp only [List.foldl_cons]
      rw [hstep acc, ih acc]
      exact locFold_fst r res b inc n rest acc (acc.1, errorsJoin acc.2 (some e)) rfl
    · rw [List.filter_cons_of_pos hld]
      simp only [List.foldl_cons]
      rcases hstep with hstep | ⟨d, hstep⟩
      · rw [hstep acc]
        exact ih acc
      · rw [hstep acc]
        exact ih _

/-- Over locations that all decode, the location fold leaves the error
component untouched. -/
theorem locFold_snd_good (r : SarifRun) (res : SarifResult) (b : String) (inc : Bool) (n : Int) :
    ∀ (locs : List SarifLocation), (∀ loc ∈ locs, locDecodes b loc = true) →
      ∀ (acc : List IssueData × Option String),
        (locs.foldl (locStep r res b inc n) acc).2 = acc.2 := by
  intro locs
  induction locs with
  | nil => intro _ acc; rfl
  | cons loc rest ih =>
    intro hgood acc
    simp only [List.foldl_cons]
    rcases locStep_cases r res b inc n loc with ⟨hld, _, _⟩ | ⟨_, hstep | ⟨d, hstep⟩⟩
    · rw [hgood loc (List.mem_cons_self _ _)] at hld
      exact absurd hld (by simp)
    · rw [hstep acc]
      exact ih (fun l hl => hgood l (List.mem_cons_of_mem _ hl)) acc
    · rw [hstep acc]
      exact ih (fun l hl => hgood l (List.mem_cons_of_mem _ hl)) _

/-- The issue component of the result fold depends on the accumulator only
through its issue component. -/
theorem resFold_fst (run : SarifRun) (b : String) (inc : Bool) (n : Int) :
    ∀ (results : List SarifResult) (acc acc' : List IssueData × Option String),
      acc.1 = acc'.1 →
      ((results.foldl
          (fun acc result => result.locations.foldl (locStep run result b inc n) acc) acc)).1
        = ((results.foldl
            (fun acc result => result.locations.foldl (locStep run result b inc n) acc) acc')).1 := by
  intro results
  induction results with
  | nil => intro acc acc' h; simpa using h
  | cons res rest ih =>
    intro acc acc' h
    simp only [List.foldl_cons]
    exact ih _ _ (locFold_fst run res b inc n res.locations acc acc' h)

/-- Erasing the undecodable locations of every result does not change the
issue component of the result fold. -/
theorem resFold_erase_fst (run : SarifRun) (b : String) (inc : Bool) (n : Int) :
    ∀ (results : List SarifResult) (acc acc' : List IssueData × Option String),
      acc.1 = acc'.1 →
      (((results.map (eraseRes b)).foldl
          (fun acc result => result.locations.foldl (locStep (eraseRun b run) result b inc n) acc)
          acc)).1
        = ((results.foldl
            (fun acc result => result.locations.foldl (locStep run result b inc n) acc) acc')).1 := by
  intro results
  induction results with
  | nil => intro acc acc' h; simpa using h
  | cons res rest ih =>
    intro acc acc' h
    simp only [List.map_cons, List.foldl_cons]
    refine ih _ _ ?_
    have h1 : (eraseRes b res).locations.foldl (locStep (eraseRun b run) (eraseRes b res) b inc n) acc
        = (res.locations.filter (locDecodes b)).foldl (locStep run res b inc n) acc := by
      rw [locStep_erase]
      rfl
    rw [h1]
    calc ((res.locations.filter (locDecodes b)).foldl (locStep run res b inc n) acc).1
        = (res.locations.foldl (locStep run res b inc n) acc).1 :=
          locFold_filter run res b inc n res.locations acc
      _ = (res.locations.foldl (locStep run res b inc n) acc').1 :=
          locFold_fst run res b inc n res.locations acc acc' h

/-- After erasure every remaining location decodes, so the result fold
leaves the error component untouched. -/
theorem resFold_erase_snd (run : SarifRun) (b : String) (inc : Bool) (n : Int) :
    ∀ (results : List SarifResult) (acc : List IssueData × Option String),
      (((results.map (eraseRes b)).foldl
          (fun acc result => result.locations.foldl (locStep (eraseRun b run) result b inc n) acc)
          acc)).2 = acc.2 := by
  intro results
  induction results with
  | nil => intro acc; rfl
  | cons res rest ih =>
    intro acc
    simp only [List.map_cons, List.foldl_cons]
    rw [ih]
    have h1 : (eraseRes b res).locations.foldl (locStep (eraseRun b run) (eraseRes b res) b inc n) acc
        = (res.locations.filter (locDecodes b)).foldl (locStep run res b inc n) acc := by
      rw [locStep_erase]
      rfl
    rw [h1]
    exact locFold_snd_good run res b inc n _
      (fun loc hl => (List.mem_filter.mp hl).2) acc

/-- C1 counterexample: on a document with one undecodable and one
convertible location, the inner mapper produces one issue alongside the
joined error, but the exported `ConvertSARIFJSONToIssues` returns the error
with no issues at all: the error is all-or-nothing at the exported API. -/
theorem C1_counterexample :
    sarifUnmarshal c1json = Except.ok c1doc
    ∧ (toIssues c1doc "/base" true 0).1.length = 1
    ∧ (toIssues c1doc "/base" true 0).2 ≠ none
    ∧ (ConvertSARIFJSONToIssues c1json "/base" true 0).toOption = none := by
  exact ⟨rfl, rfl, by decide, rfl⟩

/-- C1 amended: inside `toIssues` a failing path decode skips only that
location and joins its error: the issue slice equals the one of the document
with the failing locations erased, which converts without error; but the
exported `ConvertSARIFJSONToIssues` discards that partial slice whenever the
joined error is non-nil and returns the wrapped error alone. -/
theorem C1_claim (s : Sarif) (b : String) (inc : Bool) (n : Int) :
    (toIssues (eraseBadLocs b s) b inc n).1 = (toIssues s b inc n).1
    ∧ (toIssues (eraseBadLocs b s) b inc n).2 = none
    ∧ (∀ str e, sarifUnmarshal str = Except.ok s → (toIssues s b inc n).2 = some e →
        ConvertSARIFJSONToIssues str b inc n
          = Except.error ("failed to convert SARIF to issues: " ++ e)) := by
  refine ⟨?_, ?_, ?_⟩
  · unfold toIssues
    cases hr : s.runs with
    | nil => simp [eraseBadLocs, hr]
    | cons run rest =>
      simp only [eraseBadLocs, hr, List.map_cons]
      exact resFold_erase_fst run b inc n run.results ([], none) ([], none) rfl
  · unfold toIssues
    cases hr : s.runs with
    | nil => simp [eraseBadLocs, hr]
    | cons run rest =>
      simp only [eraseBadLocs, hr, List.map_cons]
      exact resFold_erase_snd run b inc n run.results ([], none)
  · intro str e hs ht
    unfold ConvertSARIFJSONToIssues
    rw [hs]
    rcases hti : toIssues s b inc n with ⟨issues, errs⟩
    rw [hti] at ht
    simp only at ht
    subst ht
    simp only [hti]

/-- C1 witness: the amended theorem applied to the concrete document with
one failing and one convertible location: the exported function returns the
wrapped joined decode error. -/
theorem C1_witness :
    ConvertSARIFJSONToIssues c1json "/base" true 0
      = Except.error ("failed to convert SARIF to issues: "
          ++ ("invalid URL escape " ++ "\"" ++ "%zz" ++ "\"")) := by
  exact (C1_claim c1doc "/base" true 0).2.2 c1json
    ("invalid URL escape " ++ "\"" ++ "%zz" ++ "\"") rfl rfl
